import Mathlib

/-!
Verification development for the MachiKoro gym environment
(`src/machikoro.py`, `src/machikoro_actions.py`, `src/machikoro_agent.py`).

The game state is a per-player table of 25 integer variables (turn sub-state,
coins, second-turn flag, selected player, 4 monument counts, 15 company counts,
2 dice), plus a shared card inventory, the current player index and the list of
cards activated by the last throw.  We embed the table as a total function
`Nat → Nat → Int` (player → column → value); rows at or beyond `nPlayers`
stay `0`, mirroring the bounds of the backing array.
-/

namespace MachiKoro

/-! ### State-space columns (`machikoro_state_space`).

The column layout is pinned by `src`: `to_state_index(action) = action + 1`
maps action `STATION = 3` to column 4, and the reset docstring lists the
column order (turn state, coins, second turn, selected player, 4 monuments,
15 companies, 2 dice). -/

def spTURN : Nat := 0
def spCOINS : Nat := 1
def spSECOND_TURN : Nat := 2
def spPLAYER_SELECTED : Nat := 3
def spSTATION : Nat := 4
def spMALL : Nat := 5
def spAMUSEMENT_PARK : Nat := 6
def spRADIO_TOWER : Nat := 7
def spWHEAT_FIELD : Nat := 8
def spRANCH : Nat := 9
def spBAKERY : Nat := 10
def spCAFE : Nat := 11
def spKOMBINI : Nat := 12
def spFOREST : Nat := 13
def spSTADIUM : Nat := 14
def spTV_STATION : Nat := 15
def spBUSINESS_CENTER : Nat := 16
def spCHEESE_FACTORY : Nat := 17
def spFURNITURE_FACTORY : Nat := 18
def spMINE : Nat := 19
def spFAMILY_RESTAURANT : Nat := 20
def spAPPLE_ORCHARD : Nat := 21
def spMARKET : Nat := 22
def spDIE1 : Nat := 23
def spDIE2 : Nat := 24

/-! ### Action space (`machikoro_actions`). -/

def aROLL_1 : Nat := 0
def aROLL_2 : Nat := 1
def aREROLL : Nat := 2
def aSTATION : Nat := 3
def aMALL : Nat := 4
def aAMUSEMENT_PARK : Nat := 5
def aRADIO_TOWER : Nat := 6
def aWHEAT_FIELD : Nat := 7
def aRANCH : Nat := 8
def aBAKERY : Nat := 9
def aCAFE : Nat := 10
def aKOMBINI : Nat := 11
def aFOREST : Nat := 12
def aSTADIUM : Nat := 13
def aTV_STATION : Nat := 14
def aBUSINESS_CENTER : Nat := 15
def aCHEESE_FACTORY : Nat := 16
def aFURNITURE_FACTORY : Nat := 17
def aMINE : Nat := 18
def aFAMILY_RESTAURANT : Nat := 19
def aAPPLE_ORCHARD : Nat := 20
def aMARKET : Nat := 21
def aPASS : Nat := 22
def aCHOOSE_PLAYER_0 : Nat := 23
def aCHOOSE_PLAYER_1 : Nat := 24
def aCHOOSE_PLAYER_2 : Nat := 25
def aCHOOSE_PLAYER_3 : Nat := 26

/-- `to_card` from `machikoro_actions`: action index into the card catalogue. -/
def toCard (action : Nat) : Nat := action - 3

/-- `to_state_index` from `machikoro_actions`: action into a state column. -/
def toStateIndex (action : Nat) : Nat := action + 1

/-! ### Card catalogue ids (`machikoro_cards`), indexed as `to_card` images. -/

def cSTATION : Nat := 0
def cMALL : Nat := 1
def cAMUSEMENT_PARK : Nat := 2
def cRADIO_TOWER : Nat := 3
def cWHEAT_FIELD : Nat := 4
def cRANCH : Nat := 5
def cBAKERY : Nat := 6
def cCAFE : Nat := 7
def cKOMBINI : Nat := 8
def cFOREST : Nat := 9
def cSTADIUM : Nat := 10
def cTV_STATION : Nat := 11
def cBUSINESS_CENTER : Nat := 12
def cCHEESE_FACTORY : Nat := 13
def cFURNITURE_FACTORY : Nat := 14
def cMINE : Nat := 15
def cFAMILY_RESTAURANT : Nat := 16
def cAPPLE_ORCHARD : Nat := 17
def cMARKET : Nat := 18

/-! ### Turn sub-states (`machikoro_turn_states`). -/

/-- Modelled from the spec: `machikoro_turn_states` is not under `src/`;
the spec names the six sub-states.  The numeric tags are opaque in the
source; they must be pairwise distinct and `ROLL_DICE` must be nonzero
(a turn that ends writes `0` and then `ROLL_DICE` into the turn column,
and the filler agent locates the current player by the nonzero turn cell). -/
def tsROLL_DICE : Int := 1
def tsMAY_REROLL : Int := 2
def tsMAY_BUY : Int := 3
def tsMAY_CHOOSE_PLAYER_FOR_COINS : Int := 4
def tsMAY_CHOOSE_PLAYER_FOR_CARD : Int := 5
def tsMAY_CHOOSE_CARD : Int := 6

/-- Modelled from the spec: the card price table of `machikoro_cards` is not
under `src/`.  Prices follow the fixed 22-card MachiKoro catalogue the spec
names; they are consistent with the tests in `src/tests` (Ranch costs 1,
Station costs at most 4, Stadium costs more than 3). -/
def PRICES : List Int :=
  [4, 10, 16, 22, 1, 1, 1, 2, 2, 3, 6, 7, 8, 5, 3, 6, 3, 3, 2]

/-- `get_price` on a card id. -/
def getPrice (card : Nat) : Int := PRICES.getD card 0

/-- `get_price` as invoked by `_reward`, where the argument is a cell value
(an `Int`); out-of-catalogue values price to 0. -/
def getPriceI (v : Int) : Int := if 0 ≤ v then PRICES.getD v.toNat 0 else 0

/-- Modelled from the spec: the starting stock of `machikoro_cards.INVENTORY`
is not under `src/`.  The spec fixes only that the inventory is seeded to a
fixed stock, decremented on purchase and never replenished; the tests force
the Wheat Field stock to be at most 5 (`test_empty_inventory`).  We seed
monuments with 4 and companies with 5. -/
def INVENTORY : Nat → Int := fun card => if card < 4 then 4 else 5

/-- Modelled from the spec: `machikoro_cards.get_cards_by_throw` is not under
`src/`.  Activation totals follow the spec (§2, §8 scenarios: Wheat Field
at 1, Bakery and Cafe at 3, Kombini at 4, Stadium/TV Station/Business Center
at 6 with the TV Station acted on before the Business Center) and the fixed
MachiKoro catalogue for the remaining cards. -/
def getCardsByThrow (t : Int) : List Nat :=
  if t = 1 then [cWHEAT_FIELD]
  else if t = 2 then [cRANCH, cBAKERY]
  else if t = 3 then [cBAKERY, cCAFE]
  else if t = 4 then [cKOMBINI]
  else if t = 5 then [cFOREST]
  else if t = 6 then [cSTADIUM, cTV_STATION, cBUSINESS_CENTER]
  else if t = 7 then [cCHEESE_FACTORY]
  else if t = 8 then [cFURNITURE_FACTORY]
  else if t = 9 then [cMINE, cFAMILY_RESTAURANT]
  else if t = 10 then [cFAMILY_RESTAURANT, cAPPLE_ORCHARD]
  else if t = 11 ∨ t = 12 then [cMARKET]
  else []

/-! ### The game state (`MachiKoroEnv` mutable data). -/

structure GameState where
  nPlayers : Nat
  playerIndex : Nat
  cells : Nat → Nat → Int
  inventory : Nat → Int
  currentPlayer : Nat
  cardsActivated : List Nat

/-- Point update of the state table. -/
def updCell (s : GameState) (p c : Nat) (v : Int) : GameState :=
  { s with cells := fun p' c' => if p' = p ∧ c' = c then v else s.cells p' c' }

@[simp] theorem updCell_cells (s : GameState) (p c : Nat) (v : Int) (p' c' : Nat) :
    (updCell s p c v).cells p' c' = if p' = p ∧ c' = c then v else s.cells p' c' := rfl

@[simp] theorem updCell_nPlayers (s : GameState) (p c : Nat) (v : Int) :
    (updCell s p c v).nPlayers = s.nPlayers := rfl

@[simp] theorem updCell_playerIndex (s : GameState) (p c : Nat) (v : Int) :
    (updCell s p c v).playerIndex = s.playerIndex := rfl

@[simp] theorem updCell_currentPlayer (s : GameState) (p c : Nat) (v : Int) :
    (updCell s p c v).currentPlayer = s.currentPlayer := rfl

@[simp] theorem updCell_inventory (s : GameState) (p c : Nat) (v : Int) :
    (updCell s p c v).inventory = s.inventory := rfl

@[simp] theorem updCell_cardsActivated (s : GameState) (p c : Nat) (v : Int) :
    (updCell s p c v).cardsActivated = s.cardsActivated := rfl

/-! ### Property getters and setters. -/

/-- `current_turn_state` getter. -/
def currentTurnState (s : GameState) : Int := s.cells s.currentPlayer spTURN

/-- `current_turn_state` setter (writes column 0 of the current player). -/
def setTurnState (s : GameState) (v : Int) : GameState :=
  updCell s s.currentPlayer spTURN v

/-- `current_throw` getter (both dice of the current player). -/
def currentThrow (s : GameState) : Int × Int :=
  (s.cells s.currentPlayer spDIE1, s.cells s.currentPlayer spDIE2)

/-- `current_throw` setter: each die outside `1..6` is replaced by `0`, the
pair is stored, and the activated-cards list is recomputed from the sum. -/
def setCurrentThrow (s : GameState) (d1 d2 : Int) : GameState :=
  let e1 := if 1 ≤ d1 ∧ d1 ≤ 6 then d1 else 0
  let e2 := if 1 ≤ d2 ∧ d2 ≤ 6 then d2 else 0
  let s1 := updCell (updCell s s.currentPlayer spDIE1 e1) s.currentPlayer spDIE2 e2
  { s1 with cardsActivated := getCardsByThrow (e1 + e2) }

/-- `funds` getter (coins of the current player). -/
def funds (s : GameState) : Int := s.cells s.currentPlayer spCOINS

/-- `funds` setter: raises `ValueError` on a negative amount (`none`),
otherwise stores the amount. -/
def fundsSet (s : GameState) (v : Int) : Option GameState :=
  if v < 0 then none else some (updCell s s.currentPlayer spCOINS v)

/-- `second_turn` getter. -/
def secondTurn (s : GameState) : Int := s.cells s.currentPlayer spSECOND_TURN

/-- `second_turn` setter. -/
def setSecondTurn (s : GameState) (v : Int) : GameState :=
  updCell s s.currentPlayer spSECOND_TURN v

/-- `selected_player` getter. -/
def selectedPlayer (s : GameState) : Int := s.cells s.currentPlayer spPLAYER_SELECTED

/-- `selected_player` setter. -/
def setSelectedPlayer (s : GameState) (v : Int) : GameState :=
  updCell s s.currentPlayer spPLAYER_SELECTED v

/-- `_owns`: whether the current player holds at least one copy of the card
at the given state column. -/
def owns (s : GameState) (card : Nat) : Prop := 1 ≤ s.cells s.currentPlayer card

instance (s : GameState) (card : Nat) : Decidable (owns s card) := by
  unfold owns; infer_instance

/-- `reset`: every player starts with 3 coins, one Wheat Field and one
Bakery; player 0 is current and in `ROLL_DICE`. -/
def resetState (n playerIndex : Nat) : GameState :=
  { nPlayers := n
    playerIndex := playerIndex
    cells := fun p c =>
      if p < n ∧ c = spCOINS then 3
      else if p < n ∧ (c = spWHEAT_FIELD ∨ c = spBAKERY) then 1
      else if p < n ∧ p = 0 ∧ c = spTURN then tsROLL_DICE
      else 0
    inventory := INVENTORY
    currentPlayer := 0
    cardsActivated := [] }

/-! ### Dice rolling (`_step_roll`).

`np.random.randint(1, 6)` draws from the half-open range `[1, 6)`; the draws
are passed in as parameters `r1 r2` constrained by `npRandint` where a claim
is about the built-in random source. -/

/-- Support of `np.random.randint(lo, hi)`: the upper bound is exclusive. -/
def npRandint (lo hi d : Int) : Prop := lo ≤ d ∧ d < hi

/-- The `ROLL_1` / `ROLL_2` arms of `_step_roll` (no reroll dispatch). -/
def stepRollBase (s : GameState) (action : Nat) (r1 r2 : Int) : GameState :=
  if action = aROLL_1 then setCurrentThrow s r1 0
  else if action = aROLL_2 then setCurrentThrow s r1 r2
  else s

/-- `_step_roll`: `REROLL` re-rolls with as many dice as are currently
nonzero (one nonzero die re-rolls as `ROLL_1`, two as `ROLL_2`, a fully
unset throw dispatches to action `-1` and does nothing). -/
def stepRoll (s : GameState) (action : Nat) (r1 r2 : Int) : GameState :=
  if action = aREROLL then
    let nz := (if s.cells s.currentPlayer spDIE1 ≠ 0 then 1 else 0) +
      (if s.cells s.currentPlayer spDIE2 ≠ 0 then 1 else 0)
    if nz = 1 then stepRollBase s aROLL_1 r1 r2
    else if nz = 2 then stepRollBase s aROLL_2 r1 r2
    else s
  else stepRollBase s action r1 r2

/-! ### Buying (`_step_buy`). -/

/-- The actions whose cards may be owned at most once. -/
def uniqueActions : List Nat :=
  [aSTATION, aMALL, aAMUSEMENT_PARK, aRADIO_TOWER, aSTADIUM, aTV_STATION,
    aBUSINESS_CENTER]

/-- `self.inventory[card] -= 1`. -/
def decInventory (s : GameState) (card : Nat) : GameState :=
  { s with inventory := fun c =>
      if c = card then s.inventory c - 1 else s.inventory c }

@[simp] theorem decInventory_cells (s : GameState) (card : Nat) :
    (decInventory s card).cells = s.cells := rfl

@[simp] theorem decInventory_nPlayers (s : GameState) (card : Nat) :
    (decInventory s card).nPlayers = s.nPlayers := rfl

@[simp] theorem decInventory_currentPlayer (s : GameState) (card : Nat) :
    (decInventory s card).currentPlayer = s.currentPlayer := rfl

/-- `_step_buy`: `PASS` succeeds with no effect; otherwise the purchase is
rejected (`false`) when out of stock, unaffordable, or a unique card already
owned; a successful purchase decrements the inventory, increments the count
and pays the price through the guarded `funds` setter. -/
def stepBuy (s : GameState) (action : Nat) : Option (Bool × GameState) :=
  if action = aPASS then some (true, s)
  else if s.inventory (toCard action) = 0 then some (false, s)
  else
    let price := getPrice (toCard action)
    if funds s < price then some (false, s)
    else if (action ∈ uniqueActions) ∧ owns s (toStateIndex action) then
      some (false, s)
    else
      let s1 := decInventory s (toCard action)
      let s2 := updCell s1 s.currentPlayer (toStateIndex action)
        (s1.cells s.currentPlayer (toStateIndex action) + 1)
      (fundsSet s2 (funds s2 - price)).map (fun s3 => (true, s3))

/-! ### Payment helpers.  All are from the current player's perspective. -/

/-- `_pay_all_per_index`: every player earns `money` per owned copy. -/
def payAllPerIndex (s : GameState) (card : Nat) (money : Int) : GameState :=
  { s with cells := fun p c =>
      if p < s.nPlayers ∧ c = spCOINS then s.cells p c + money * s.cells p card
      else s.cells p c }

/-- `_pay_self_per_index`: only the current player earns. -/
def paySelfPerIndex (s : GameState) (card : Nat) (money : Int) : GameState :=
  updCell s s.currentPlayer spCOINS
    (s.cells s.currentPlayer spCOINS + money * s.cells s.currentPlayer card)

/-- `_pay_self_multiplied_per_index`: earn per card, scaled by the count of a
multiplier card, sequentially over the card list. -/
def paySelfMultiplied (s : GameState) (cards : List Nat) (mult : Nat)
    (money : Int) : GameState :=
  match cards with
  | [] => s
  | card :: rest =>
      paySelfMultiplied
        (updCell s s.currentPlayer spCOINS
          (s.cells s.currentPlayer spCOINS +
            money * s.cells s.currentPlayer card * s.cells s.currentPlayer mult))
        rest mult money

/-- The other players, in playing order: `np.delete(np.arange(n), cp)`. -/
def others (s : GameState) : List Nat :=
  (List.range s.nPlayers).filter (fun i => i ≠ s.currentPlayer)

/-- Loop body of `_pay_others_from_index` over a fixed creditor list:
each payment is capped at the payer's remaining funds, deducted through the
guarded `funds` setter and credited directly. -/
def payOthersLoop (card : Nat) (money : Int) :
    List Nat → GameState → Option GameState
  | [], s => some s
  | i :: rest, s =>
      let mtp0 := money * s.cells i card
      let mtp := if mtp0 > funds s then funds s else mtp0
      (fundsSet s (funds s - mtp)).bind (fun s1 =>
        payOthersLoop card money rest
          (updCell s1 i spCOINS (s1.cells i spCOINS + mtp)))

/-- `_pay_others_from_index`: pay the other players in reverse playing
order. -/
def payOthersFromIndex (s : GameState) (card : Nat) (money : Int) :
    Option GameState :=
  payOthersLoop card money (others s).reverse s

/-- Loop body of `_pay_self_from_others_per_index`: note the cap compares
`money` (not the computed `money_to_pay`) against the victim's coins, exactly
as the source does. -/
def paySelfFromOthersLoop (card : Nat) (money : Int) :
    List Nat → GameState → Option GameState
  | [], s => some s
  | i :: rest, s =>
      let mtp0 := money * s.cells s.currentPlayer card
      let mtp := if money > s.cells i spCOINS then s.cells i spCOINS else mtp0
      (fundsSet s (funds s + mtp)).bind (fun s1 =>
        paySelfFromOthersLoop card money rest
          (updCell s1 i spCOINS (s1.cells i spCOINS - mtp)))

/-- `_pay_self_from_others_per_index`: earn from the other players in playing
order. -/
def paySelfFromOthers (s : GameState) (card : Nat) (money : Int) :
    Option GameState :=
  paySelfFromOthersLoop card money (others s) s

/-- The `match` over `CHOOSE_PLAYER` actions shared by the two steal
helpers: an unrecognised value leaves the target at the current player. -/
def stealTarget (s : GameState) (playerAction : Nat) : Nat :=
  if playerAction = aCHOOSE_PLAYER_0 then 0
  else if playerAction = aCHOOSE_PLAYER_1 then 1
  else if playerAction = aCHOOSE_PLAYER_2 then 2
  else if playerAction = aCHOOSE_PLAYER_3 then 3
  else s.currentPlayer

/-- The target recorded in the `selected_player` cell, decoded the same
way (`_steal_card_from_player`). -/
def chosenTarget (s : GameState) : Nat :=
  if selectedPlayer s = (aCHOOSE_PLAYER_0 : Int) then 0
  else if selectedPlayer s = (aCHOOSE_PLAYER_1 : Int) then 1
  else if selectedPlayer s = (aCHOOSE_PLAYER_2 : Int) then 2
  else if selectedPlayer s = (aCHOOSE_PLAYER_3 : Int) then 3
  else s.currentPlayer

/-- `_steal_coins_from_player`: steal `money` coins (capped at the victim's
coins) from the player selected by a `CHOOSE_PLAYER` action; both coin cells
are written directly. -/
def stealCoinsFromPlayer (s : GameState) (playerAction : Nat) (money : Int) :
    GameState :=
  let other := stealTarget s playerAction
  let mtp := if money > s.cells other spCOINS then s.cells other spCOINS else money
  let s1 := updCell s other spCOINS (s.cells other spCOINS - mtp)
  updCell s1 s.currentPlayer spCOINS (s1.cells s.currentPlayer spCOINS + mtp)

/-- `_steal_card_from_player`: move one copy of the card named by the action
from the previously selected player to the current player; fails on a unique
card already owned or when the target holds no copy. -/
def stealCardFromPlayer (s : GameState) (action : Nat) : Bool × GameState :=
  let other := chosenTarget s
  let card := toStateIndex action
  if spBUSINESS_CENTER ≥ card ∧ card ≥ spSTADIUM ∧ owns s card then (false, s)
  else if s.cells other card = 0 then (false, s)
  else
    let s1 := updCell s other card (s.cells other card - 1)
    (true, updCell s1 s.currentPlayer card (s1.cells s.currentPlayer card + 1))

/-! ### Economy resolution (`_economy`). -/

/-- Remove the first occurrence of a card from the activated list
(`list.remove`). -/
def removeAct (s : GameState) (card : Nat) : GameState :=
  { s with cardsActivated := s.cardsActivated.erase card }

/-- The Shopping Mall bonus, computed once at the start of `_economy`. -/
def mallBonus (s : GameState) : Int := if owns s spMALL then 1 else 0

/-- The Cafe debt phase of `_economy`. -/
def cafePhase (s : GameState) (bonus : Int) : Option GameState :=
  if cCAFE ∈ s.cardsActivated then
    (payOthersFromIndex s spCAFE (1 + bonus)).map (fun s1 => removeAct s1 cCAFE)
  else some s

/-- The Family Restaurant debt phase of `_economy`. -/
def famPhase (s : GameState) (bonus : Int) : Option GameState :=
  if cFAMILY_RESTAURANT ∈ s.cardsActivated then
    (payOthersFromIndex s spFAMILY_RESTAURANT (2 + bonus)).map
      (fun s1 => removeAct s1 cFAMILY_RESTAURANT)
  else some s

/-- The bank/interactive loop of `_economy`, iterating over the local copy of
the activation list taken before the debt phase; the TV Station and Business
Center, if owned, set an interactive sub-state and return at once, leaving
the rest of the batch in `cardsActivated`. -/
def economyLoop (bonus : Int) : List Nat → GameState → Option GameState
  | [], s => some s
  | card :: rest, s =>
      if card = cWHEAT_FIELD then
        economyLoop bonus rest (removeAct (payAllPerIndex s spWHEAT_FIELD 1) cWHEAT_FIELD)
      else if card = cRANCH then
        economyLoop bonus rest (removeAct (payAllPerIndex s spRANCH 1) cRANCH)
      else if card = cBAKERY then
        economyLoop bonus rest (removeAct (paySelfPerIndex s spBAKERY (1 + bonus)) cBAKERY)
      else if card = cKOMBINI then
        economyLoop bonus rest (removeAct (paySelfPerIndex s spKOMBINI (3 + bonus)) cKOMBINI)
      else if card = cFOREST then
        economyLoop bonus rest (removeAct (payAllPerIndex s spFOREST 1) cFOREST)
      else if card = cSTADIUM then
        (paySelfFromOthers s spSTADIUM 2).bind (fun s1 =>
          economyLoop bonus rest (removeAct s1 cSTADIUM))
      else if card = cTV_STATION then
        if owns s spTV_STATION then
          some (removeAct (setTurnState s tsMAY_CHOOSE_PLAYER_FOR_COINS) cTV_STATION)
        else economyLoop bonus rest s
      else if card = cBUSINESS_CENTER then
        if owns s spBUSINESS_CENTER then
          some (removeAct (setTurnState s tsMAY_CHOOSE_PLAYER_FOR_CARD) cBUSINESS_CENTER)
        else economyLoop bonus rest s
      else if card = cCHEESE_FACTORY then
        economyLoop bonus rest
          (removeAct (paySelfMultiplied s [spRANCH] spCHEESE_FACTORY 3) cCHEESE_FACTORY)
      else if card = cFURNITURE_FACTORY then
        economyLoop bonus rest
          (removeAct (paySelfMultiplied s [spFOREST, spMINE] spFURNITURE_FACTORY 3)
            cFURNITURE_FACTORY)
      else if card = cMINE then
        economyLoop bonus rest (removeAct (payAllPerIndex s spMINE 5) cMINE)
      else if card = cAPPLE_ORCHARD then
        economyLoop bonus rest (removeAct (payAllPerIndex s spAPPLE_ORCHARD 3) cAPPLE_ORCHARD)
      else if card = cMARKET then
        economyLoop bonus rest
          (removeAct (paySelfMultiplied s [spWHEAT_FIELD, spAPPLE_ORCHARD] spMARKET 2) cMARKET)
      else economyLoop bonus rest s

/-- `_economy`: debt cards first (Cafe, then Family Restaurant), then the
loop over the pre-debt copy of the activation list. -/
def economy (s : GameState) : Option GameState :=
  let localCards := s.cardsActivated
  let bonus := mallBonus s
  (cafePhase s bonus).bind (fun s1 =>
    (famPhase s1 bonus).bind (fun s2 => economyLoop bonus localCards s2))

/-! ### Turn rotation and reward. -/

/-- `_end_turn`: clear the old player's turn cell and dice, advance the
current player modulo the player count, and reset the new player's turn
sub-state, second-turn flag and selected player. -/
def endTurn (s : GameState) : GameState :=
  let s1 := setTurnState s 0
  let s2 := setCurrentThrow s1 0 0
  let s3 := { s2 with currentPlayer := (s2.currentPlayer + 1) % s2.nPlayers }
  let s4 := setTurnState s3 tsROLL_DICE
  let s5 := setSecondTurn s4 0
  setSelectedPlayer s5 0

/-- The per-player metric of `_reward` exactly as computed by the source:
coins plus, for each position `k` in the card slice, `k * get_price(count)` —
the `enumerate` index times the price of the card whose id equals the stored
count. -/
def rewardMetric (s : GameState) (p : Nat) : Int :=
  s.cells p spCOINS +
    ((List.range 19).map
      (fun (k : Nat) => (k : Int) * getPriceI (s.cells p (spSTATION + k)))).sum

/-- Maximum of a list of metrics (`max(rewards)` on a nonempty list). -/
def listMax : List Int → Int
  | [] => 0
  | x :: xs => xs.foldl max x

/-- `_reward`: the learning player's metric minus the maximum metric. -/
def reward (s : GameState) : Int :=
  ((List.range s.nPlayers).map (rewardMetric s)).getD s.playerIndex 0 -
    listMax ((List.range s.nPlayers).map (rewardMetric s))

/-! ### The step function (`_step`). -/

/-- Result triple of `_step`: state, reward, game over (the info dict is
empty on every return path of `_step`). -/
abbrev StepResult := GameState × Int × Bool

/-- `ILLEGAL_MOVE`: unchanged state, reward `-3`, not game over. -/
def illegalMove (s : GameState) : StepResult := (s, -3, false)

/-- The `CHOOSE_PLAYER` actions legal in the player-choice sub-states:
the list of all four choices with the entry at the current player's index
popped, truncated to the other-player count. -/
def validPlayers (s : GameState) : List Nat :=
  (([aCHOOSE_PLAYER_0, aCHOOSE_PLAYER_1, aCHOOSE_PLAYER_2,
      aCHOOSE_PLAYER_3].eraseIdx s.currentPlayer).take (s.nPlayers - 1))

/-- Dice resolution shared by `ROLL_DICE` and the `REROLL` arm: forced dice
are honoured in test mode, otherwise `_step_roll` runs on the drawn values. -/
def rollOrForce (s : GameState) (action : Nat) (testMode : Bool)
    (dice : Option (Int × Int)) (r1 r2 : Int) : GameState :=
  match testMode, dice with
  | true, some (d1, d2) => setCurrentThrow s d1 d2
  | _, _ => stepRoll s action r1 r2

/-- Sum of the four monument counts of a player
(`sum(state[p, STATION:RADIO_TOWER + 1])`). -/
def monSum (s : GameState) (p : Nat) : Int :=
  s.cells p spSTATION + s.cells p spMALL + s.cells p spAMUSEMENT_PARK +
    s.cells p spRADIO_TOWER

/-- The `ROLL_DICE` branch of `_step`. -/
def branchRoll (s : GameState) (action : Nat) (testMode : Bool)
    (dice : Option (Int × Int)) (r1 r2 : Int) : Option StepResult :=
  if action ∉ [aROLL_1, aROLL_2] then some (illegalMove s)
  else if action = aROLL_2 ∧ ¬ owns s spSTATION then some (illegalMove s)
  else
    let s1 := rollOrForce s action testMode dice r1 r2
    if owns s spRADIO_TOWER then
      let s2 := setTurnState s1 tsMAY_REROLL
      some (s2, reward s2, false)
    else
      (economy (setTurnState s1 tsMAY_BUY)).map (fun s2 => (s2, reward s2, false))

/-- The `MAY_REROLL` branch of `_step`. -/
def branchReroll (s : GameState) (action : Nat) (testMode : Bool)
    (dice : Option (Int × Int)) (r1 r2 : Int) : Option StepResult :=
  if action ∉ [aREROLL, aPASS] then some (illegalMove s)
  else
    let s1 := if action = aREROLL then rollOrForce s action testMode dice r1 r2 else s
    (economy (setTurnState s1 tsMAY_BUY)).map (fun s2 => (s2, reward s2, false))

/-- The `MAY_CHOOSE_PLAYER_FOR_COINS` branch of `_step` (TV Station). -/
def branchChooseCoins (s : GameState) (action : Nat) : Option StepResult :=
  if action ∉ validPlayers s then some (illegalMove s)
  else
    let s1 := stealCoinsFromPlayer s action 5
    (economy (setTurnState s1 tsMAY_BUY)).map (fun s2 => (s2, reward s2, false))

/-- The `MAY_CHOOSE_PLAYER_FOR_CARD` branch of `_step` (Business Center,
first half). -/
def branchChoosePlayerCard (s : GameState) (action : Nat) : Option StepResult :=
  if action ∉ validPlayers s then some (illegalMove s)
  else
    let s1 := setSelectedPlayer s (action : Int)
    let s2 := setTurnState s1 tsMAY_CHOOSE_CARD
    some (s2, reward s2, false)

/-- The `MAY_CHOOSE_CARD` branch of `_step` (Business Center, second half). -/
def branchChooseCard (s : GameState) (action : Nat) : Option StepResult :=
  if action < aWHEAT_FIELD ∨ action > aMARKET then some (illegalMove s)
  else
    match stealCardFromPlayer s action with
    | (false, _) => some (illegalMove s)
    | (true, s1) =>
        (economy (setTurnState s1 tsMAY_BUY)).map (fun s2 => (s2, reward s2, false))

/-- The `MAY_BUY` branch of `_step`: buy or pass, then the win check, then
the bonus-turn check on the dice read back from the state, else end the
turn.  `hasSecondTurn` is the flag computed at `_step` entry. -/
def branchBuy (s : GameState) (action : Nat) (hasSecondTurn : Bool) :
    Option StepResult :=
  if (action < aSTATION ∨ action > aMARKET) ∧ ¬ action = aPASS then
    some (illegalMove s)
  else
    (stepBuy s action).bind (fun br =>
      match br with
      | (false, _) => some (illegalMove s)
      | (true, s1) =>
          if monSum s1 s1.currentPlayer = 4 then some (s1, 1000, true)
          else
            let d := currentThrow s1
            if d.1 = d.2 ∧ hasSecondTurn then
              let s2 := setCurrentThrow (setTurnState s1 tsROLL_DICE) 0 0
              let s3 := setSelectedPlayer (setSecondTurn s2 1) 0
              some (s3, reward s3, false)
            else
              let s2 := endTurn s1
              some (s2, reward s2, false))

/-- `_step`: dispatch on the current turn sub-state; the trailing fallthrough
returns the state with reward 0. -/
def stepM (s : GameState) (action : Nat) (testMode : Bool)
    (dice : Option (Int × Int)) (r1 r2 : Int) : Option StepResult :=
  let cts := currentTurnState s
  let hasSecondTurn := decide (owns s spAMUSEMENT_PARK) && !(decide (secondTurn s = 1))
  if cts = tsROLL_DICE then branchRoll s action testMode dice r1 r2
  else if cts = tsMAY_REROLL then branchReroll s action testMode dice r1 r2
  else if cts = tsMAY_CHOOSE_PLAYER_FOR_COINS then branchChooseCoins s action
  else if cts = tsMAY_CHOOSE_PLAYER_FOR_CARD then branchChoosePlayerCard s action
  else if cts = tsMAY_CHOOSE_CARD then branchChooseCard s action
  else if cts = tsMAY_BUY then branchBuy s action hasSecondTurn
  else some (s, 0, false)

/-- The buy branch admits exactly the card actions and `PASS`. -/
def buyActionOk (a : Nat) : Prop := (aSTATION ≤ a ∧ a ≤ aMARKET) ∨ a = aPASS

instance (a : Nat) : Decidable (buyActionOk a) := by
  unfold buyActionOk; infer_instance

/-- Reachable game states: a fresh reset for 2 to 4 players, closed under
`_step` with any action, any test-mode forced dice and any random draws
(forced dice subsume the support of the built-in random source). -/
inductive Reachable : GameState → Prop
  | init (n playerIndex : Nat) : 2 ≤ n → n ≤ 4 → playerIndex < n →
      Reachable (resetState n playerIndex)
  | step (s : GameState) (action : Nat) (testMode : Bool)
      (dice : Option (Int × Int)) (r1 r2 : Int) (s' : GameState) (r : Int)
      (dn : Bool) : Reachable s →
      stepM s action testMode dice r1 r2 = some (s', r, dn) → Reachable s'

/-! ### The funds invariant.

Claim C1 asserts that no player's funds ever drop below zero across `_step`.
The invariant needed for the induction: coins and card counts are
non-negative, every player holds at most one Stadium (the Stadium payout is
`2 * count` but its cap compares `2` against the victim's coins, so a count
above 1 could overdraw a victim — counts above 1 are unreachable for unique
cards), the current player index is in range, and the player count is the
constructor's 2..4. -/

def CoinsOK (s : GameState) : Prop := ∀ p, p < s.nPlayers → 0 ≤ s.cells p 1

def CountsOK (s : GameState) : Prop :=
  ∀ p c, p < s.nPlayers → 4 ≤ c → c ≤ 22 → 0 ≤ s.cells p c

def StadiumOK (s : GameState) : Prop := ∀ p, p < s.nPlayers → s.cells p 14 ≤ 1

def Inv (s : GameState) : Prop :=
  2 ≤ s.nPlayers ∧ s.nPlayers ≤ 4 ∧ s.currentPlayer < s.nPlayers ∧
    CoinsOK s ∧ CountsOK s ∧ StadiumOK s

theorem inv_updCell_flags (s : GameState) (p c : Nat) (v : Int) (h : Inv s)
    (hc : c = 0 ∨ c = 2 ∨ c = 3 ∨ c = 23 ∨ c = 24) : Inv (updCell s p c v) := by
  obtain ⟨h2, h4, hcp, hco, hct, hst⟩ := h
  refine ⟨h2, h4, hcp, ?_, ?_, ?_⟩
  · intro q hq
    have hq' : q < s.nPlayers := hq
    have hne : ¬(q = p ∧ 1 = c) := by omega
    simp only [updCell_cells, if_neg hne]
    exact hco q hq'
  · intro q c' hq hc4 hc22
    have hq' : q < s.nPlayers := hq
    have hne : ¬(q = p ∧ c' = c) := by omega
    simp only [updCell_cells, if_neg hne]
    exact hct q c' hq' hc4 hc22
  · intro q hq
    have hq' : q < s.nPlayers := hq
    have hne : ¬(q = p ∧ 14 = c) := by omega
    simp only [updCell_cells, if_neg hne]
    exact hst q hq'

theorem inv_setTurnState (s : GameState) (v : Int) (h : Inv s) :
    Inv (setTurnState s v) :=
  inv_updCell_flags s s.currentPlayer spTURN v h (Or.inl rfl)

theorem inv_setSecondTurn (s : GameState) (v : Int) (h : Inv s) :
    Inv (setSecondTurn s v) :=
  inv_updCell_flags s s.currentPlayer spSECOND_TURN v h (Or.inr (Or.inl rfl))

theorem inv_setSelectedPlayer (s : GameState) (v : Int) (h : Inv s) :
    Inv (setSelectedPlayer s v) :=
  inv_updCell_flags s s.currentPlayer spPLAYER_SELECTED v h
    (Or.inr (Or.inr (Or.inl rfl)))

theorem inv_setCurrentThrow (s : GameState) (d1 d2 : Int) (h : Inv s) :
    Inv (setCurrentThrow s d1 d2) :=
  inv_updCell_flags _ s.currentPlayer spDIE2 _
    (inv_updCell_flags s s.currentPlayer spDIE1 _ h
      (Or.inr (Or.inr (Or.inr (Or.inl rfl)))))
    (Or.inr (Or.inr (Or.inr (Or.inr rfl))))

theorem inv_removeAct (s : GameState) (card : Nat) (h : Inv s) :
    Inv (removeAct s card) := h

theorem inv_stepRollBase (s : GameState) (a : Nat) (r1 r2 : Int) (h : Inv s) :
    Inv (stepRollBase s a r1 r2) := by
  unfold stepRollBase
  split
  · exact inv_setCurrentThrow s r1 0 h
  · split
    · exact inv_setCurrentThrow s r1 r2 h
    · exact h

theorem inv_stepRoll (s : GameState) (a : Nat) (r1 r2 : Int) (h : Inv s) :
    Inv (stepRoll s a r1 r2) := by
  unfold stepRoll
  split
  · dsimp only
    repeat' split
    all_goals first
      | exact inv_stepRollBase s aROLL_1 r1 r2 h
      | exact inv_stepRollBase s aROLL_2 r1 r2 h
      | exact h
  · exact inv_stepRollBase s a r1 r2 h

theorem inv_rollOrForce (s : GameState) (a : Nat) (tm : Bool)
    (d : Option (Int × Int)) (r1 r2 : Int) (h : Inv s) :
    Inv (rollOrForce s a tm d r1 r2) := by
  unfold rollOrForce
  rcases tm with _ | _ <;> rcases d with _ | ⟨d1, d2⟩
  · exact inv_stepRoll s a r1 r2 h
  · exact inv_stepRoll s a r1 r2 h
  · exact inv_stepRoll s a r1 r2 h
  · exact inv_setCurrentThrow s d1 d2 h

theorem inv_payAll (s : GameState) (card : Nat) (money : Int) (h : Inv s)
    (hm : 0 ≤ money) (h4 : 4 ≤ card) (h22 : card ≤ 22) :
    Inv (payAllPerIndex s card money) := by
  obtain ⟨h2, hn4, hcp, hco, hct, hst⟩ := h
  refine ⟨h2, hn4, hcp, ?_, ?_, ?_⟩
  · intro q hq
    have hq' : q < s.nPlayers := hq
    show 0 ≤ (if q < s.nPlayers ∧ (1 : Nat) = spCOINS then
      s.cells q 1 + money * s.cells q card else s.cells q 1)
    rw [if_pos ⟨hq', rfl⟩]
    exact add_nonneg (hco q hq') (mul_nonneg hm (hct q card hq' h4 h22))
  · intro q c' hq hc4 hc22
    have hq' : q < s.nPlayers := hq
    show 0 ≤ (if q < s.nPlayers ∧ c' = spCOINS then
      s.cells q c' + money * s.cells q card else s.cells q c')
    have hne : ¬(q < s.nPlayers ∧ c' = spCOINS) := by
      rintro ⟨-, hh⟩
      have hh' : c' = 1 := hh
      omega
    rw [if_neg hne]
    exact hct q c' hq' hc4 hc22
  · intro q hq
    have hq' : q < s.nPlayers := hq
    show (if q < s.nPlayers ∧ (14 : Nat) = spCOINS then
      s.cells q 14 + money * s.cells q card else s.cells q 14) ≤ 1
    have hne : ¬(q < s.nPlayers ∧ (14 : Nat) = spCOINS) := by
      rintro ⟨-, hh⟩
      have hh' : (14 : Nat) = 1 := hh
      omega
    rw [if_neg hne]
    exact hst q hq'

theorem inv_paySelf (s : GameState) (card : Nat) (money : Int) (h : Inv s)
    (hm : 0 ≤ money) (h4 : 4 ≤ card) (h22 : card ≤ 22) :
    Inv (paySelfPerIndex s card money) := by
  obtain ⟨h2, hn4, hcp, hco, hct, hst⟩ := h
  refine ⟨h2, hn4, hcp, ?_, ?_, ?_⟩
  · intro q hq
    have hq' : q < s.nPlayers := hq
    simp only [paySelfPerIndex, updCell_cells]
    split
    · exact add_nonneg (hco s.currentPlayer hcp)
        (mul_nonneg hm (hct s.currentPlayer card hcp h4 h22))
    · exact hco q hq'
  · intro q c' hq hc4 hc22
    have hq' : q < s.nPlayers := hq
    have hne : ¬(q = s.currentPlayer ∧ c' = spCOINS) := by
      rintro ⟨-, hh⟩
      have hh' : c' = 1 := hh
      omega
    simp only [paySelfPerIndex, updCell_cells, if_neg hne]
    exact hct q c' hq' hc4 hc22
  · intro q hq
    have hq' : q < s.nPlayers := hq
    have hne : ¬(q = s.currentPlayer ∧ (14 : Nat) = spCOINS) := by
      rintro ⟨-, hh⟩
      have hh' : (14 : Nat) = 1 := hh
      omega
    simp only [paySelfPerIndex, updCell_cells, if_neg hne]
    exact hst q hq'

theorem inv_paySelfMultiplied (s : GameState) (cards : List Nat) (mult : Nat)
    (money : Int) (h : Inv s) (hm : 0 ≤ money)
    (hcards : ∀ x ∈ cards, 4 ≤ x ∧ x ≤ 22) (hm4 : 4 ≤ mult)
    (hm22 : mult ≤ 22) : Inv (paySelfMultiplied s cards mult money) := by
  induction cards generalizing s with
  | nil => exact h
  | cons card rest ih =>
      obtain ⟨hx4, hx22⟩ := hcards card (List.mem_cons_self card rest)
      obtain ⟨h2, hn4, hcp, hco, hct, hst⟩ := h
      refine ih _ ⟨h2, hn4, hcp, ?_, ?_, ?_⟩
        (fun x hx => hcards x (List.mem_cons_of_mem card hx))
      · intro q hq
        have hq' : q < s.nPlayers := hq
        simp only [updCell_cells]
        split
        · refine add_nonneg (hco s.currentPlayer hcp) ?_
          exact mul_nonneg
            (mul_nonneg hm (hct s.currentPlayer card hcp hx4 hx22))
            (hct s.currentPlayer mult hcp hm4 hm22)
        · exact hco q hq'
      · intro q c' hq hc4 hc22
        have hq' : q < s.nPlayers := hq
        have hne : ¬(q = s.currentPlayer ∧ c' = spCOINS) := by
          rintro ⟨-, hh⟩
          have hh' : c' = 1 := hh
          omega
        simp only [updCell_cells, if_neg hne]
        exact hct q c' hq' hc4 hc22
      · intro q hq
        have hq' : q < s.nPlayers := hq
        have hne : ¬(q = s.currentPlayer ∧ (14 : Nat) = spCOINS) := by
          rintro ⟨-, hh⟩
          have hh' : (14 : Nat) = 1 := hh
          omega
        simp only [updCell_cells, if_neg hne]
        exact hst q hq'

theorem fundsSet_eq_some (s : GameState) (v : Int) (s' : GameState) :
    fundsSet s v = some s' ↔ 0 ≤ v ∧ s' = updCell s s.currentPlayer 1 v := by
  unfold fundsSet
  split
  · constructor
    · intro h; cases h
    · rintro ⟨h0, -⟩; omega
  · constructor
    · intro h
      refine ⟨by omega, ?_⟩
      exact (Option.some.inj h).symm
    · rintro ⟨-, h⟩; rw [h]; rfl

theorem inv_updCoins (s : GameState) (p : Nat) (v : Int) (h : Inv s)
    (hv : p < s.nPlayers → 0 ≤ v) : Inv (updCell s p 1 v) := by
  obtain ⟨h2, h4, hcp, hco, hct, hst⟩ := h
  refine ⟨h2, h4, hcp, ?_, ?_, ?_⟩
  · intro q hq
    have hq' : q < s.nPlayers := hq
    simp only [updCell_cells]
    split
    · rename_i hh
      exact hv (hh.1 ▸ hq')
    · exact hco q hq'
  · intro q c' hq hc4 hc22
    have hq' : q < s.nPlayers := hq
    have hne : ¬(q = p ∧ c' = 1) := by omega
    simp only [updCell_cells, if_neg hne]
    exact hct q c' hq' hc4 hc22
  · intro q hq
    have hq' : q < s.nPlayers := hq
    have hne : ¬(q = p ∧ 14 = 1) := by omega
    simp only [updCell_cells, if_neg hne]
    exact hst q hq'

theorem inv_updCount (s : GameState) (p c : Nat) (v : Int) (h : Inv s)
    (hc4 : 4 ≤ c) (hc22 : c ≤ 22) (hv : p < s.nPlayers → 0 ≤ v)
    (hstad : p < s.nPlayers → c = 14 → v ≤ 1) : Inv (updCell s p c v) := by
  obtain ⟨h2, h4, hcp, hco, hct, hst⟩ := h
  refine ⟨h2, h4, hcp, ?_, ?_, ?_⟩
  · intro q hq
    have hq' : q < s.nPlayers := hq
    have hne : ¬(q = p ∧ 1 = c) := by omega
    simp only [updCell_cells, if_neg hne]
    exact hco q hq'
  · intro q c' hq h4' h22'
    have hq' : q < s.nPlayers := hq
    simp only [updCell_cells]
    split
    · rename_i hh
      exact hv (hh.1 ▸ hq')
    · exact hct q c' hq' h4' h22'
  · intro q hq
    have hq' : q < s.nPlayers := hq
    simp only [updCell_cells]
    split
    · rename_i hh
      exact hstad (hh.1 ▸ hq') hh.2.symm
    · exact hst q hq'

theorem inv_payOthersLoop (card : Nat) (money : Int) (l : List Nat) :
    ∀ s s', Inv s → 0 ≤ money → 4 ≤ card → card ≤ 22 →
    (∀ i ∈ l, i < s.nPlayers) →
    payOthersLoop card money l s = some s' → Inv s' := by
  induction l with
  | nil =>
      intro s s' h _ _ _ _ hl
      simp only [payOthersLoop] at hl
      exact (Option.some.inj hl) ▸ h
  | cons i rest ih =>
      intro s s' h hm h4 h22 hmem hl
      simp only [payOthersLoop, Option.bind_eq_some, spCOINS] at hl
      obtain ⟨s1, hfs, hl⟩ := hl
      rw [fundsSet_eq_some] at hfs
      obtain ⟨hv, rfl⟩ := hfs
      have hi : i < s.nPlayers := hmem i (List.mem_cons_self i rest)
      have hmtp : 0 ≤ (if money * s.cells i card > funds s then funds s
          else money * s.cells i card) := by
        have hf : 0 ≤ funds s := h.2.2.2.1 s.currentPlayer h.2.2.1
        have hc : 0 ≤ s.cells i card := h.2.2.2.2.1 i card hi h4 h22
        have hmc : 0 ≤ money * s.cells i card := mul_nonneg hm hc
        split <;> omega
      have h1 : Inv (updCell s s.currentPlayer 1 (funds s -
          (if money * s.cells i card > funds s then funds s
            else money * s.cells i card))) :=
        inv_updCoins s _ _ h (fun _ => hv)
      refine ih _ s' (inv_updCoins _ i _ h1 (fun hi' => ?_)) hm h4 h22
        (fun j hj => hmem j (List.mem_cons_of_mem i hj)) hl
      have hc1 : 0 ≤ (updCell s s.currentPlayer 1 (funds s -
          (if money * s.cells i card > funds s then funds s
            else money * s.cells i card))).cells i 1 :=
        h1.2.2.2.1 i hi'
      omega

theorem inv_paySelfFromOthersLoop (l : List Nat) :
    ∀ s s', Inv s → (∀ i ∈ l, i < s.nPlayers ∧ i ≠ s.currentPlayer) →
    paySelfFromOthersLoop 14 2 l s = some s' → Inv s' := by
  induction l with
  | nil =>
      intro s s' h _ hl
      simp only [paySelfFromOthersLoop] at hl
      exact (Option.some.inj hl) ▸ h
  | cons i rest ih =>
      intro s s' h hmem hl
      simp only [paySelfFromOthersLoop, Option.bind_eq_some, spCOINS] at hl
      obtain ⟨s1, hfs, hl⟩ := hl
      rw [fundsSet_eq_some] at hfs
      obtain ⟨hv, rfl⟩ := hfs
      obtain ⟨hi, hicp⟩ := hmem i (List.mem_cons_self i rest)
      have h1 : Inv (updCell s s.currentPlayer 1 (funds s +
          (if 2 > s.cells i 1 then s.cells i 1
            else 2 * s.cells s.currentPlayer 14))) :=
        inv_updCoins s _ _ h (fun _ => hv)
      refine ih _ s' (inv_updCoins _ i _ h1 (fun hi' => ?_))
        (fun j hj => hmem j (List.mem_cons_of_mem i hj)) hl
      have hcell : (updCell s s.currentPlayer 1 (funds s +
          (if 2 > s.cells i 1 then s.cells i 1
            else 2 * s.cells s.currentPlayer 14))).cells i 1 = s.cells i 1 := by
        simp only [updCell_cells]
        rw [if_neg (fun hh => hicp hh.1)]
      rw [hcell]
      have hstad0 : 0 ≤ s.cells s.currentPlayer 14 :=
        h.2.2.2.2.1 s.currentPlayer 14 h.2.2.1 (by omega) (by omega)
      have hstad1 : s.cells s.currentPlayer 14 ≤ 1 :=
        h.2.2.2.2.2 s.currentPlayer h.2.2.1
      have hci : 0 ≤ s.cells i 1 := h.2.2.2.1 i hi
      split <;> omega

theorem validPlayers_target (s : GameState) (a : Nat) (h2 : 2 ≤ s.nPlayers)
    (h4 : s.nPlayers ≤ 4) (hcp : s.currentPlayer < s.nPlayers)
    (ha : a ∈ validPlayers s) :
    stealTarget s a < s.nPlayers ∧ stealTarget s a ≠ s.currentPlayer := by
  have key : ∀ n ∈ List.range 5, ∀ cp ∈ List.range 4, ∀ x ∈ List.range 27,
      2 ≤ n → cp < n →
      x ∈ (([23, 24, 25, 26].eraseIdx cp).take (n - 1)) →
      ((if x = 23 then 0 else if x = 24 then 1 else if x = 25 then 2
        else if x = 26 then 3 else cp) < n ∧
       ¬(if x = 23 then 0 else if x = 24 then 1 else if x = 25 then 2
        else if x = 26 then 3 else cp) = cp) := by decide
  have hmem : a ∈ [23, 24, 25, 26] :=
    (List.eraseIdx_sublist [23, 24, 25, 26] s.currentPlayer).subset
      (List.take_subset _ _ ha)
  have ha27 : a < 27 := by
    simp only [List.mem_cons, List.not_mem_nil, or_false] at hmem
    omega
  exact key s.nPlayers (List.mem_range.mpr (by omega)) s.currentPlayer
    (List.mem_range.mpr (by omega)) a (List.mem_range.mpr ha27) h2 hcp ha

theorem inv_stealCoins (s : GameState) (a : Nat) (h : Inv s)
    (ht : stealTarget s a < s.nPlayers) : Inv (stealCoinsFromPlayer s a 5) := by
  unfold stealCoinsFromPlayer
  simp only [spCOINS]
  have hc0 : 0 ≤ s.cells (stealTarget s a) 1 := h.2.2.2.1 _ ht
  have h1 : Inv (updCell s (stealTarget s a) 1
      (s.cells (stealTarget s a) 1 -
        (if 5 > s.cells (stealTarget s a) 1 then s.cells (stealTarget s a) 1
          else 5))) := by
    refine inv_updCoins s _ _ h (fun _ => ?_)
    split <;> omega
  refine inv_updCoins _ _ _ h1 (fun hcp => ?_)
  have hcp' : s.currentPlayer < s.nPlayers := hcp
  have hcoin : 0 ≤ s.cells s.currentPlayer 1 := h.2.2.2.1 _ hcp'
  simp only [updCell_cells]
  by_cases hct : s.currentPlayer = stealTarget s a
  · rw [if_pos ⟨hct, trivial⟩]
    split <;> omega
  · rw [if_neg (fun hh => hct hh.1)]
    split <;> omega

theorem inv_stealCard (s : GameState) (a : Nat) (b : Bool) (sb : GameState)
    (h : Inv s) (h7 : 7 ≤ a) (h21 : a ≤ 21)
    (hs : stealCardFromPlayer s a = (b, sb)) : Inv sb := by
  unfold stealCardFromPlayer at hs
  dsimp only at hs
  have hc4 : 4 ≤ toStateIndex a := by unfold toStateIndex; omega
  have hc22 : toStateIndex a ≤ 22 := by unfold toStateIndex; omega
  split at hs
  · exact (Prod.mk.injEq _ _ _ _ ▸ hs).2 ▸ h
  · split at hs
    · exact (Prod.mk.injEq _ _ _ _ ▸ hs).2 ▸ h
    · rename_i hguard hzero
      have hsb : sb = updCell
          (updCell s (chosenTarget s) (toStateIndex a)
            (s.cells (chosenTarget s) (toStateIndex a) - 1))
          s.currentPlayer (toStateIndex a)
          ((updCell s (chosenTarget s) (toStateIndex a)
            (s.cells (chosenTarget s) (toStateIndex a) - 1)).cells
              s.currentPlayer (toStateIndex a) + 1) :=
        ((Prod.mk.injEq _ _ _ _ ▸ hs).2).symm
      have hzero' : ¬ s.cells (chosenTarget s) (toStateIndex a) = 0 := hzero
      have hinner : Inv (updCell s (chosenTarget s) (toStateIndex a)
          (s.cells (chosenTarget s) (toStateIndex a) - 1)) := by
        refine inv_updCount s _ _ _ h hc4 hc22 (fun hlt => ?_) (fun hlt h14 => ?_)
        · have h0 := h.2.2.2.2.1 (chosenTarget s) (toStateIndex a) hlt hc4 hc22
          omega
        · have h1 := h.2.2.2.2.2 (chosenTarget s) hlt
          rw [h14] at hzero' ⊢
          omega
      rw [hsb]
      refine inv_updCount _ _ _ _ hinner hc4 hc22 (fun hlt => ?_)
        (fun hlt h14 => ?_)
      · have hlt' : s.currentPlayer < s.nPlayers := hlt
        simp only [updCell_cells]
        split
        · rename_i hh
          have h0 := h.2.2.2.2.1 (chosenTarget s) (toStateIndex a)
            (hh.1 ▸ hlt') hc4 hc22
          omega
        · have h0 := h.2.2.2.2.1 s.currentPlayer (toStateIndex a) hlt' hc4 hc22
          omega
      · have hlt' : s.currentPlayer < s.nPlayers := hlt
        have howns : ¬ owns s (toStateIndex a) := fun hw =>
          hguard ⟨by show (16 : Nat) ≥ toStateIndex a; omega,
            by show toStateIndex a ≥ (14 : Nat); omega, hw⟩
        have hle : s.cells s.currentPlayer (toStateIndex a) ≤ 0 := by
          unfold owns at howns
          omega
        simp only [updCell_cells]
        split
        · rename_i hh
          rw [hh.1] at hle
          omega
        · omega

theorem inv_stepBuy (s : GameState) (a : Nat) (b : Bool) (sb : GameState)
    (h : Inv s) (hba : buyActionOk a) (hs : stepBuy s a = some (b, sb)) :
    Inv sb := by
  unfold stepBuy at hs
  dsimp only at hs
  split at hs
  · exact ((Prod.mk.injEq _ _ _ _ ▸ Option.some.inj hs).2) ▸ h
  · split at hs
    · exact ((Prod.mk.injEq _ _ _ _ ▸ Option.some.inj hs).2) ▸ h
    · split at hs
      · exact ((Prod.mk.injEq _ _ _ _ ▸ Option.some.inj hs).2) ▸ h
      · split at hs
        · exact ((Prod.mk.injEq _ _ _ _ ▸ Option.some.inj hs).2) ▸ h
        · rename_i hnp hstock hfunds huniq
          simp only [Option.map_eq_some'] at hs
          obtain ⟨s3, hfs, heq⟩ := hs
          rw [fundsSet_eq_some] at hfs
          obtain ⟨hv, rfl⟩ := hfs
          have hsb : sb = _ := (Prod.mk.injEq _ _ _ _ ▸ heq).2.symm
          rw [hsb]
          have ha21 : 3 ≤ a ∧ a ≤ 21 := by
            rcases hba with hba | hba
            · exact ⟨hba.1, hba.2⟩
            · exact absurd hba hnp
          have hc4 : 4 ≤ toStateIndex a := by unfold toStateIndex; omega
          have hc22 : toStateIndex a ≤ 22 := by unfold toStateIndex; omega
          refine inv_updCoins _ _ _ ?_ (fun _ => hv)
          refine inv_updCount _ _ _ _
            (show Inv (decInventory s (toCard a)) from h) hc4 hc22
            (fun hlt => ?_) (fun hlt h14 => ?_)
          · have hlt' : s.currentPlayer < s.nPlayers := hlt
            have h0 := h.2.2.2.2.1 s.currentPlayer (toStateIndex a) hlt' hc4 hc22
            simp only [decInventory_cells]
            omega
          · have ha13 : a = 13 := by unfold toStateIndex at h14; omega
            have howns : ¬ owns s (toStateIndex a) := by
              intro hw
              refine huniq ⟨?_, hw⟩
              rw [ha13]
              unfold uniqueActions aSTATION aMALL aAMUSEMENT_PARK aRADIO_TOWER
                aSTADIUM aTV_STATION aBUSINESS_CENTER
              simp
            unfold owns at howns
            have hle : s.cells s.currentPlayer (toStateIndex a) ≤ 0 := by omega
            simp only [decInventory_cells]
            omega

theorem mem_others (s : GameState) (i : Nat) (hi : i ∈ others s) :
    i < s.nPlayers ∧ i ≠ s.currentPlayer := by
  unfold others at hi
  rw [List.mem_filter] at hi
  exact ⟨List.mem_range.mp hi.1, by simpa using hi.2⟩

theorem inv_payOthersFromIndex (s s' : GameState) (card : Nat) (money : Int)
    (h : Inv s) (hm : 0 ≤ money) (h4 : 4 ≤ card) (h22 : card ≤ 22)
    (hp : payOthersFromIndex s card money = some s') : Inv s' :=
  inv_payOthersLoop card money (others s).reverse s s' h hm h4 h22
    (fun i hi => (mem_others s i (List.mem_reverse.mp hi)).1) hp

theorem inv_paySelfFromOthersStad (s s' : GameState) (h : Inv s)
    (hp : paySelfFromOthers s spSTADIUM 2 = some s') : Inv s' :=
  inv_paySelfFromOthersLoop (others s) s s' h
    (fun i hi => mem_others s i hi) hp

theorem mallBonus_nonneg (s : GameState) : 0 ≤ mallBonus s := by
  unfold mallBonus
  split <;> omega

theorem inv_cafePhase (s s' : GameState) (bonus : Int) (h : Inv s)
    (hb : 0 ≤ bonus) (hp : cafePhase s bonus = some s') : Inv s' := by
  unfold cafePhase at hp
  split at hp
  · simp only [Option.map_eq_some'] at hp
    obtain ⟨s1, hps, heq⟩ := hp
    exact heq ▸ inv_removeAct _ _
      (inv_payOthersFromIndex s s1 spCAFE (1 + bonus) h (by omega)
        (by decide) (by decide) hps)
  · exact (Option.some.inj hp) ▸ h

theorem inv_famPhase (s s' : GameState) (bonus : Int) (h : Inv s)
    (hb : 0 ≤ bonus) (hp : famPhase s bonus = some s') : Inv s' := by
  unfold famPhase at hp
  split at hp
  · simp only [Option.map_eq_some'] at hp
    obtain ⟨s1, hps, heq⟩ := hp
    exact heq ▸ inv_removeAct _ _
      (inv_payOthersFromIndex s s1 spFAMILY_RESTAURANT (2 + bonus) h (by omega)
        (by decide) (by decide) hps)
  · exact (Option.some.inj hp) ▸ h

theorem inv_economyLoop (bonus : Int) (hb : 0 ≤ bonus) (l : List Nat) :
    ∀ s s', Inv s → economyLoop bonus l s = some s' → Inv s' := by
  induction l with
  | nil =>
      intro s s' h hp
      exact (Option.some.inj hp) ▸ h
  | cons card rest ih =>
      intro s s' h hp
      unfold economyLoop at hp
      by_cases hc1 : card = cWHEAT_FIELD
      · rw [if_pos hc1] at hp
        exact ih _ _ (inv_removeAct _ _
          (inv_payAll s spWHEAT_FIELD 1 h (by decide) (by decide) (by decide))) hp
      rw [if_neg hc1] at hp
      by_cases hc2 : card = cRANCH
      · rw [if_pos hc2] at hp
        exact ih _ _ (inv_removeAct _ _
          (inv_payAll s spRANCH 1 h (by decide) (by decide) (by decide))) hp
      rw [if_neg hc2] at hp
      by_cases hc3 : card = cBAKERY
      · rw [if_pos hc3] at hp
        exact ih _ _ (inv_removeAct _ _
          (inv_paySelf s spBAKERY (1 + bonus) h (by omega) (by decide)
            (by decide))) hp
      rw [if_neg hc3] at hp
      by_cases hc4 : card = cKOMBINI
      · rw [if_pos hc4] at hp
        exact ih _ _ (inv_removeAct _ _
          (inv_paySelf s spKOMBINI (3 + bonus) h (by omega) (by decide)
            (by decide))) hp
      rw [if_neg hc4] at hp
      by_cases hc5 : card = cFOREST
      · rw [if_pos hc5] at hp
        exact ih _ _ (inv_removeAct _ _
          (inv_payAll s spFOREST 1 h (by decide) (by decide) (by decide))) hp
      rw [if_neg hc5] at hp
      by_cases hc6 : card = cSTADIUM
      · rw [if_pos hc6] at hp
        rw [Option.bind_eq_some] at hp
        obtain ⟨s1, hps, hp⟩ := hp
        exact ih _ _ (inv_removeAct _ _
          (inv_paySelfFromOthersStad s s1 h hps)) hp
      rw [if_neg hc6] at hp
      by_cases hc7 : card = cTV_STATION
      · rw [if_pos hc7] at hp
        split at hp
        · exact (Option.some.inj hp) ▸ inv_removeAct _ _
            (inv_setTurnState _ _ h)
        · exact ih _ _ h hp
      rw [if_neg hc7] at hp
      by_cases hc8 : card = cBUSINESS_CENTER
      · rw [if_pos hc8] at hp
        split at hp
        · exact (Option.some.inj hp) ▸ inv_removeAct _ _
            (inv_setTurnState _ _ h)
        · exact ih _ _ h hp
      rw [if_neg hc8] at hp
      by_cases hc9 : card = cCHEESE_FACTORY
      · rw [if_pos hc9] at hp
        exact ih _ _ (inv_removeAct _ _
          (inv_paySelfMultiplied s [spRANCH] spCHEESE_FACTORY 3 h (by decide)
            (by decide) (by decide) (by decide))) hp
      rw [if_neg hc9] at hp
      by_cases hc10 : card = cFURNITURE_FACTORY
      · rw [if_pos hc10] at hp
        exact ih _ _ (inv_removeAct _ _
          (inv_paySelfMultiplied s [spFOREST, spMINE] spFURNITURE_FACTORY 3 h
            (by decide) (by decide) (by decide) (by decide))) hp
      rw [if_neg hc10] at hp
      by_cases hc11 : card = cMINE
      · rw [if_pos hc11] at hp
        exact ih _ _ (inv_removeAct _ _
          (inv_payAll s spMINE 5 h (by decide) (by decide) (by decide))) hp
      rw [if_neg hc11] at hp
      by_cases hc12 : card = cAPPLE_ORCHARD
      · rw [if_pos hc12] at hp
        exact ih _ _ (inv_removeAct _ _
          (inv_payAll s spAPPLE_ORCHARD 3 h (by decide) (by decide)
            (by decide))) hp
      rw [if_neg hc12] at hp
      by_cases hc13 : card = cMARKET
      · rw [if_pos hc13] at hp
        exact ih _ _ (inv_removeAct _ _
          (inv_paySelfMultiplied s [spWHEAT_FIELD, spAPPLE_ORCHARD] spMARKET 2
            h (by decide) (by decide) (by decide) (by decide))) hp
      rw [if_neg hc13] at hp
      exact ih _ _ h hp

theorem inv_economy (s s' : GameState) (h : Inv s)
    (hp : economy s = some s') : Inv s' := by
  unfold economy at hp
  dsimp only at hp
  rw [Option.bind_eq_some] at hp
  obtain ⟨s1, hc, hp⟩ := hp
  rw [Option.bind_eq_some] at hp
  obtain ⟨s2, hf, hp⟩ := hp
  exact inv_economyLoop (mallBonus s) (mallBonus_nonneg s) s.cardsActivated
    s2 s' (inv_famPhase s1 s2 (mallBonus s)
      (inv_cafePhase s s1 (mallBonus s) h (mallBonus_nonneg s) hc)
      (mallBonus_nonneg s) hf) hp

theorem inv_endTurn (s : GameState) (h : Inv s) : Inv (endTurn s) := by
  unfold endTurn
  dsimp only
  refine inv_setSelectedPlayer _ _ (inv_setSecondTurn _ _ (inv_setTurnState _ _ ?_))
  have h2 := inv_setCurrentThrow _ 0 0 (inv_setTurnState s 0 h)
  obtain ⟨ha, hb, hc, hd, he, hf⟩ := h2
  exact ⟨ha, hb, Nat.mod_lt _ (by omega), hd, he, hf⟩

theorem triple_eq_state {x s' : GameState} {y r : Int} {z dn : Bool}
    (h : (x, y, z) = (s', r, dn)) : s' = x := (congrArg Prod.fst h).symm

theorem inv_branchRoll (s : GameState) (a : Nat) (tm : Bool)
    (d : Option (Int × Int)) (r1 r2 : Int) (s' : GameState) (r : Int)
    (dn : Bool) (h : Inv s)
    (hp : branchRoll s a tm d r1 r2 = some (s', r, dn)) : Inv s' := by
  unfold branchRoll at hp
  split at hp
  · exact (triple_eq_state (Option.some.inj hp)) ▸ h
  · split at hp
    · exact (triple_eq_state (Option.some.inj hp)) ▸ h
    · split at hp
      · exact (triple_eq_state (Option.some.inj hp)) ▸
          inv_setTurnState _ _ (inv_rollOrForce s a tm d r1 r2 h)
      · simp only [Option.map_eq_some'] at hp
        obtain ⟨s2, heco, heq⟩ := hp
        exact (triple_eq_state heq) ▸ inv_economy _ _
          (inv_setTurnState _ _ (inv_rollOrForce s a tm d r1 r2 h)) heco

theorem inv_branchReroll (s : GameState) (a : Nat) (tm : Bool)
    (d : Option (Int × Int)) (r1 r2 : Int) (s' : GameState) (r : Int)
    (dn : Bool) (h : Inv s)
    (hp : branchReroll s a tm d r1 r2 = some (s', r, dn)) : Inv s' := by
  unfold branchReroll at hp
  split at hp
  · exact (triple_eq_state (Option.some.inj hp)) ▸ h
  · simp only [Option.map_eq_some'] at hp
    obtain ⟨s2, heco, heq⟩ := hp
    refine (triple_eq_state heq) ▸ inv_economy _ _ (inv_setTurnState _ _ ?_) heco
    split
    · exact inv_rollOrForce s a tm d r1 r2 h
    · exact h

theorem inv_branchChooseCoins (s : GameState) (a : Nat) (s' : GameState)
    (r : Int) (dn : Bool) (h : Inv s)
    (hp : branchChooseCoins s a = some (s', r, dn)) : Inv s' := by
  unfold branchChooseCoins at hp
  split at hp
  · exact (triple_eq_state (Option.some.inj hp)) ▸ h
  · rename_i hvp
    rw [not_not] at hvp
    simp only [Option.map_eq_some'] at hp
    obtain ⟨s2, heco, heq⟩ := hp
    have ht := validPlayers_target s a h.1 h.2.1 h.2.2.1 hvp
    exact (triple_eq_state heq) ▸ inv_economy _ _
      (inv_setTurnState _ _ (inv_stealCoins s a h ht.1)) heco

theorem inv_branchChoosePlayerCard (s : GameState) (a : Nat) (s' : GameState)
    (r : Int) (dn : Bool) (h : Inv s)
    (hp : branchChoosePlayerCard s a = some (s', r, dn)) : Inv s' := by
  unfold branchChoosePlayerCard at hp
  split at hp
  · exact (triple_eq_state (Option.some.inj hp)) ▸ h
  · exact (triple_eq_state (Option.some.inj hp)) ▸
      inv_setTurnState _ _ (inv_setSelectedPlayer _ _ h)

theorem inv_branchChooseCard (s : GameState) (a : Nat) (s' : GameState)
    (r : Int) (dn : Bool) (h : Inv s)
    (hp : branchChooseCard s a = some (s', r, dn)) : Inv s' := by
  unfold branchChooseCard at hp
  split at hp
  · exact (triple_eq_state (Option.some.inj hp)) ▸ h
  · rename_i hrange
    split at hp
    · exact (triple_eq_state (Option.some.inj hp)) ▸ h
    · rename_i b s1 heqsc
      simp only [Option.map_eq_some'] at hp
      obtain ⟨s2, heco, heq⟩ := hp
      have h7 : 7 ≤ a := by
        have : ¬(a < 7 ∨ a > 21) := hrange
        omega
      have h21 : a ≤ 21 := by
        have : ¬(a < 7 ∨ a > 21) := hrange
        omega
      exact (triple_eq_state heq) ▸ inv_economy _ _
        (inv_setTurnState _ _ (inv_stealCard s a true s1 h h7 h21 heqsc)) heco

theorem inv_branchBuy (s : GameState) (a : Nat) (hst : Bool) (s' : GameState)
    (r : Int) (dn : Bool) (h : Inv s)
    (hp : branchBuy s a hst = some (s', r, dn)) : Inv s' := by
  unfold branchBuy at hp
  split at hp
  · exact (triple_eq_state (Option.some.inj hp)) ▸ h
  · rename_i hrange
    have hba : buyActionOk a := by
      have : ¬((a < 3 ∨ a > 21) ∧ ¬a = 22) := hrange
      unfold buyActionOk aSTATION aMARKET aPASS
      omega
    rw [Option.bind_eq_some] at hp
    obtain ⟨⟨bb, sb⟩, hbb, hp⟩ := hp
    have hsb : Inv sb := inv_stepBuy s a bb sb h hba hbb
    split at hp
    · exact (triple_eq_state (Option.some.inj hp)) ▸ h
    · rename_i s1 heq1
      have hseq : sb = s1 := (Prod.mk.injEq _ _ _ _ ▸ heq1).2
      have hs1 : Inv s1 := hseq ▸ hsb
      dsimp only at hp
      split at hp
      · exact (triple_eq_state (Option.some.inj hp)) ▸ hs1
      · split at hp
        · exact (triple_eq_state (Option.some.inj hp)) ▸
            inv_setSelectedPlayer _ _ (inv_setSecondTurn _ _
              (inv_setCurrentThrow _ 0 0 (inv_setTurnState _ _ hs1)))
        · exact (triple_eq_state (Option.some.inj hp)) ▸ inv_endTurn _ hs1

theorem inv_stepM (s : GameState) (a : Nat) (tm : Bool)
    (d : Option (Int × Int)) (r1 r2 : Int) (s' : GameState) (r : Int)
    (dn : Bool) (h : Inv s)
    (hp : stepM s a tm d r1 r2 = some (s', r, dn)) : Inv s' := by
  unfold stepM at hp
  dsimp only at hp
  split at hp
  · exact inv_branchRoll s a tm d r1 r2 s' r dn h hp
  · split at hp
    · exact inv_branchReroll s a tm d r1 r2 s' r dn h hp
    · split at hp
      · exact inv_branchChooseCoins s a s' r dn h hp
      · split at hp
        · exact inv_branchChoosePlayerCard s a s' r dn h hp
        · split at hp
          · exact inv_branchChooseCard s a s' r dn h hp
          · split at hp
            · exact inv_branchBuy s a _ s' r dn h hp
            · exact (triple_eq_state (Option.some.inj hp)) ▸ h

theorem reachable_inv (s : GameState) (h : Reachable s) : Inv s := by
  induction h with
  | init n pi h2 h4 hpi =>
      refine ⟨h2, h4, ?_, ?_, ?_, ?_⟩
      · show 0 < n
        omega
      · intro p hp
        have hp' : p < n := hp
        show 0 ≤ (resetState n pi).cells p 1
        simp only [resetState, spCOINS, spWHEAT_FIELD, spBAKERY, spTURN,
          tsROLL_DICE]
        split_ifs <;> omega
      · intro p c hp h4c h22c
        have hp' : p < n := hp
        show 0 ≤ (resetState n pi).cells p c
        simp only [resetState, spCOINS, spWHEAT_FIELD, spBAKERY, spTURN,
          tsROLL_DICE]
        split_ifs <;> omega
      · intro p hp
        have hp' : p < n := hp
        show (resetState n pi).cells p 14 ≤ 1
        simp only [resetState, spCOINS, spWHEAT_FIELD, spBAKERY, spTURN,
          tsROLL_DICE]
        split_ifs <;> omega
  | step s a tm d r1 r2 s' r dn hr hstep ih =>
      exact inv_stepM s a tm d r1 r2 s' r dn ih hstep

/-- C1: after any `_step` call from a reachable state, every player's funds
remain non-negative (all payment effects clamp at available funds; the
guarded `funds` setter would abort rather than store a negative amount). -/
theorem mk_C1 (s : GameState) (a : Nat) (tm : Bool) (d : Option (Int × Int))
    (r1 r2 : Int) (s' : GameState) (r : Int) (dn : Bool) (hr : Reachable s)
    (hp : stepM s a tm d r1 r2 = some (s', r, dn)) :
    ∀ p, p < s'.nPlayers → 0 ≤ s'.cells p spCOINS :=
  fun p hplt =>
    (reachable_inv s' (Reachable.step s a tm d r1 r2 s' r dn hr hp)).2.2.2.1
      p hplt

/-- C1 witness: a concrete reachable step (reset for 4 players, player 0
rolls a forced 1) keeps every player's funds non-negative. -/
theorem mk_C1_witness :
    Reachable (resetState 4 0) ∧
    ((stepM (resetState 4 0) aROLL_1 true (some (1, 0)) 1 1).elim False
      (fun t => ∀ p, p < t.1.nPlayers → 0 ≤ t.1.cells p spCOINS)) := by
  have hre : Reachable (resetState 4 0) :=
    Reachable.init 4 0 (by omega) (by omega) (by omega)
  refine ⟨hre, ?_⟩
  obtain ⟨⟨s', r, dn⟩, hp⟩ :
      ∃ t, stepM (resetState 4 0) aROLL_1 true (some (1, 0)) 1 1 = some t :=
    ⟨_, rfl⟩
  rw [hp]
  exact fun p hplt =>
    mk_C1 (resetState 4 0) aROLL_1 true (some (1, 0)) 1 1 s' r dn hre hp p hplt

/-! ### Claim-specific definitions. -/

/-- Modelled from the spec's words (for comparison with `reward`): the
net-worth metric — funds plus the total historical purchase value of owned
cards, each card's price times its owned count, summed over the card
slice. -/
def rewardMetricSpec (s : GameState) (p : Nat) : Int :=
  s.cells p spCOINS +
    ((List.range 19).map
      (fun (k : Nat) => s.cells p (spSTATION + k) * getPrice k)).sum

/-- Modelled from the spec's words: the learning player's net-worth metric
minus the maximum metric over all players. -/
def rewardSpec (s : GameState) : Int :=
  ((List.range s.nPlayers).map (rewardMetricSpec s)).getD s.playerIndex 0 -
    listMax ((List.range s.nPlayers).map (rewardMetricSpec s))

/-- A 4-player reset state in which player 1 owns three Wheat Fields. -/
def stateC3 : GameState := updCell (resetState 4 0) 1 spWHEAT_FIELD 3

/-- A 4-player reset state in which player 1 holds a single coin. -/
def stateC7 : GameState := updCell (resetState 4 0) 1 spCOINS 1

/-- A 4-player state in `MAY_BUY` where player 0 owns the Mall, the
Amusement Park and the Radio Tower and holds 10 coins. -/
def stateC4 : GameState :=
  updCell (updCell (updCell (updCell (updCell (resetState 4 0)
    0 spTURN tsMAY_BUY) 0 spMALL 1) 0 spAMUSEMENT_PARK 1)
    0 spRADIO_TOWER 1) 0 spCOINS 10

theorem setCurrentThrow_cells (s : GameState) (d1 d2 : Int) (p c : Nat) :
    (setCurrentThrow s d1 d2).cells p c =
      if p = s.currentPlayer ∧ c = spDIE2 then
        (if 1 ≤ d2 ∧ d2 ≤ 6 then d2 else 0)
      else if p = s.currentPlayer ∧ c = spDIE1 then
        (if 1 ≤ d1 ∧ d1 ≤ 6 then d1 else 0)
      else s.cells p c := rfl

@[simp] theorem setCurrentThrow_nPlayers (s : GameState) (d1 d2 : Int) :
    (setCurrentThrow s d1 d2).nPlayers = s.nPlayers := rfl

@[simp] theorem setCurrentThrow_currentPlayer (s : GameState) (d1 d2 : Int) :
    (setCurrentThrow s d1 d2).currentPlayer = s.currentPlayer := rfl

theorem stepRoll_reroll (s : GameState) (r1 r2 : Int) :
    stepRoll s aREROLL r1 r2 =
      (if s.cells s.currentPlayer spDIE1 ≠ 0 then
         (if s.cells s.currentPlayer spDIE2 ≠ 0 then setCurrentThrow s r1 r2
          else setCurrentThrow s r1 0)
       else (if s.cells s.currentPlayer spDIE2 ≠ 0 then setCurrentThrow s r1 0
             else s)) := by
  unfold stepRoll stepRollBase
  rw [if_pos rfl]
  dsimp only
  by_cases hA : s.cells s.currentPlayer spDIE1 ≠ 0 <;>
    by_cases hB : s.cells s.currentPlayer spDIE2 ≠ 0 <;>
    simp [hA, hB, aROLL_1, aROLL_2, aREROLL]

/-! ### The claims. -/

/-- C3 (code bug): `_reward` does not compute the documented net-worth
metric.  At `stateC3` (player 1 owns three Wheat Fields) a legal roll step
returns reward `-48`, whereas the spec's funds-plus-price-times-count
relative-standing metric is `-2`: the source multiplies the `enumerate`
index by `get_price(count)` — the position times the price of the card whose
id equals the stored count — instead of the count times the card's price. -/
theorem mk_C3_reward_bug :
    ∃ t, stepM stateC3 aROLL_1 true (some (5, 0)) 1 1 = some t ∧
      t.2.1 = -48 ∧ t.2.2 = false ∧ rewardSpec t.1 = -2 ∧
      reward stateC3 = -48 ∧ rewardSpec stateC3 = -2 := by
  refine ⟨_, rfl, ?_, ?_, ?_, ?_, ?_⟩ <;> decide

/-- C7 (code bug): when a throw of 6 activates the Stadium, the current
player collects even while owning no Stadium: the cap in
`_pay_self_from_others_per_index` compares the per-card amount `2` (not the
computed total `2 * count`) against the victim's coins, so with zero
Stadiums a victim holding one coin still loses it.  At `stateC7` player 0
owns no Stadium yet ends the step with 4 coins while player 1 drops from 1
to 0. -/
theorem mk_C7_stadium_bug :
    ∃ t, stepM stateC7 aROLL_1 true (some (6, 0)) 1 1 = some t ∧
      stateC7.cells 0 spSTADIUM = 0 ∧ stateC7.cells 1 spCOINS = 1 ∧
      t.1.cells 0 spCOINS = 4 ∧ t.1.cells 1 spCOINS = 0 ∧ t.2.2 = false := by
  refine ⟨_, rfl, ?_, ?_, ?_, ?_, ?_⟩ <;> decide

/-- C9 counterexample: the `current_throw` setter does not fail on a die
value outside `0..6`; it completes and stores the substituted value `0` for
the out-of-range die `7`. -/
theorem mk_C9_counterexample :
    (setCurrentThrow (resetState 4 0) 7 0).cells 0 spDIE1 = 0 ∧
    (setCurrentThrow (resetState 4 0) 7 0).cells 0 spDIE2 = 0 ∧
    ¬((7 : Int) ≤ 6) := by
  decide

/-- C9 (amended): setting the current throw never aborts — each die outside
`1..6` (in particular any value outside `0..6`) is silently replaced by `0`
(unset) — while setting funds to a negative amount directly does abort
(`ValueError`), and a non-negative amount is stored unchanged. -/
theorem mk_C9_amended (s : GameState) (d1 d2 v : Int) :
    ((setCurrentThrow s d1 d2).cells s.currentPlayer spDIE1 =
        (if 1 ≤ d1 ∧ d1 ≤ 6 then d1 else 0) ∧
      (setCurrentThrow s d1 d2).cells s.currentPlayer spDIE2 =
        (if 1 ≤ d2 ∧ d2 ≤ 6 then d2 else 0)) ∧
    (v < 0 → fundsSet s v = none) ∧
    (0 ≤ v → fundsSet s v = some (updCell s s.currentPlayer spCOINS v)) := by
  refine ⟨⟨?_, ?_⟩, ?_, ?_⟩
  · rw [setCurrentThrow_cells]
    rw [if_neg (fun hh => absurd hh.2 (by decide)), if_pos ⟨rfl, rfl⟩]
  · rw [setCurrentThrow_cells]
    rw [if_pos ⟨rfl, rfl⟩]
  · intro hv
    unfold fundsSet
    rw [if_pos hv]
  · intro hv
    unfold fundsSet
    rw [if_neg (by omega)]

/-- C9 witness: the amended behaviour at the concrete inputs — die 7 is
stored as 0, and setting funds to -1 aborts. -/
theorem mk_C9_witness :
    (setCurrentThrow (resetState 4 0) 7 0).cells
        (resetState 4 0).currentPlayer spDIE1 =
      (if (1 : Int) ≤ 7 ∧ (7 : Int) ≤ 6 then 7 else 0) ∧
    fundsSet (resetState 4 0) (-1) = none :=
  ⟨(mk_C9_amended (resetState 4 0) 7 0 (-1)).1.1,
    (mk_C9_amended (resetState 4 0) 7 0 (-1)).2.1 (by decide)⟩

/-- C10: dice rolled through the built-in random source only take values in
`1..5` — `np.random.randint(1, 6)` has an exclusive upper bound — so after
any `ROLL_1`, `ROLL_2` or `REROLL` resolution both dice are at most 5, never
6, and the dice sum never exceeds 10. -/
theorem mk_C10 (s : GameState) (a : Nat) (r1 r2 : Int)
    (h1 : npRandint 1 6 r1) (h2 : npRandint 1 6 r2)
    (ha : a = aROLL_1 ∨ a = aROLL_2 ∨ a = aREROLL) :
    (stepRoll s a r1 r2).cells s.currentPlayer spDIE1 ≤ 5 ∧
    (stepRoll s a r1 r2).cells s.currentPlayer spDIE2 ≤ 5 ∧
    ¬(stepRoll s a r1 r2).cells s.currentPlayer spDIE1 = 6 ∧
    ¬(stepRoll s a r1 r2).cells s.currentPlayer spDIE2 = 6 ∧
    (stepRoll s a r1 r2).cells s.currentPlayer spDIE1 +
      (stepRoll s a r1 r2).cells s.currentPlayer spDIE2 ≤ 10 := by
  obtain ⟨h1a, h1b⟩ := h1
  obtain ⟨h2a, h2b⟩ := h2
  have key : ∀ e1 e2 : Int,
      (setCurrentThrow s e1 e2).cells s.currentPlayer spDIE1 =
        (if 1 ≤ e1 ∧ e1 ≤ 6 then e1 else 0) ∧
      (setCurrentThrow s e1 e2).cells s.currentPlayer spDIE2 =
        (if 1 ≤ e2 ∧ e2 ≤ 6 then e2 else 0) := by
    intro e1 e2
    constructor
    · rw [setCurrentThrow_cells]
      rw [if_neg (fun hh => absurd hh.2 (by decide)), if_pos ⟨rfl, rfl⟩]
    · rw [setCurrentThrow_cells]
      rw [if_pos ⟨rfl, rfl⟩]
  rcases ha with rfl | rfl | rfl
  · have hs : stepRoll s aROLL_1 r1 r2 = setCurrentThrow s r1 0 := rfl
    rw [hs, (key r1 0).1, (key r1 0).2]
    refine ⟨?_, ?_, ?_, ?_, ?_⟩ <;> split_ifs <;> omega
  · have hs : stepRoll s aROLL_2 r1 r2 = setCurrentThrow s r1 r2 := rfl
    rw [hs, (key r1 r2).1, (key r1 r2).2]
    refine ⟨?_, ?_, ?_, ?_, ?_⟩ <;> split_ifs <;> omega
  · rw [stepRoll_reroll]
    by_cases hA : s.cells s.currentPlayer spDIE1 ≠ 0 <;>
      by_cases hB : s.cells s.currentPlayer spDIE2 ≠ 0
    · rw [if_pos hA, if_pos hB, (key r1 r2).1, (key r1 r2).2]
      refine ⟨?_, ?_, ?_, ?_, ?_⟩ <;> split_ifs <;> omega
    · rw [if_pos hA, if_neg hB, (key r1 0).1, (key r1 0).2]
      refine ⟨?_, ?_, ?_, ?_, ?_⟩ <;> split_ifs <;> omega
    · rw [if_neg hA, if_pos hB, (key r1 0).1, (key r1 0).2]
      refine ⟨?_, ?_, ?_, ?_, ?_⟩ <;> split_ifs <;> omega
    · rw [if_neg hA, if_neg hB]
      push_neg at hA hB
      refine ⟨?_, ?_, ?_, ?_, ?_⟩ <;> omega

/-- C10 witness: the bound at concrete inputs — a forced state, `ROLL_1`,
and draws 5 and 5 from the randint support. -/
theorem mk_C10_witness :
    npRandint 1 6 5 ∧
    (stepRoll (resetState 4 0) aROLL_1 5 5).cells
        (resetState 4 0).currentPlayer spDIE1 ≤ 5 ∧
    ¬(stepRoll (resetState 4 0) aROLL_1 5 5).cells
        (resetState 4 0).currentPlayer spDIE1 = 6 :=
  ⟨⟨by decide, by decide⟩,
    (mk_C10 (resetState 4 0) aROLL_1 5 5 ⟨by decide, by decide⟩
      ⟨by decide, by decide⟩ (Or.inl rfl)).1,
    (mk_C10 (resetState 4 0) aROLL_1 5 5 ⟨by decide, by decide⟩
      ⟨by decide, by decide⟩ (Or.inl rfl)).2.2.1⟩

/-- The rule violations of the claim, per sub-state: an action the sub-state
does not accept, rolling two dice without the Station, insufficient funds,
out-of-stock, buying an owned unique card, and stealing a card the chosen
target does not own (or a unique card already owned). -/
def IllegalFor (s : GameState) (a : Nat) : Prop :=
  (currentTurnState s = tsROLL_DICE ∧
    ((a ∉ [aROLL_1, aROLL_2]) ∨ (a = aROLL_2 ∧ ¬ owns s spSTATION))) ∨
  (currentTurnState s = tsMAY_REROLL ∧ a ∉ [aREROLL, aPASS]) ∨
  (currentTurnState s = tsMAY_CHOOSE_PLAYER_FOR_COINS ∧ a ∉ validPlayers s) ∨
  (currentTurnState s = tsMAY_CHOOSE_PLAYER_FOR_CARD ∧ a ∉ validPlayers s) ∨
  (currentTurnState s = tsMAY_CHOOSE_CARD ∧
    ((a < aWHEAT_FIELD ∨ a > aMARKET) ∨
      (spBUSINESS_CENTER ≥ toStateIndex a ∧ toStateIndex a ≥ spSTADIUM ∧
        owns s (toStateIndex a)) ∨
      s.cells (chosenTarget s) (toStateIndex a) = 0)) ∨
  (currentTurnState s = tsMAY_BUY ∧
    (((a < aSTATION ∨ a > aMARKET) ∧ ¬ a = aPASS) ∨
      (¬ a = aPASS ∧
        (s.inventory (toCard a) = 0 ∨ funds s < getPrice (toCard a) ∨
          ((a ∈ uniqueActions) ∧ owns s (toStateIndex a))))))

instance (s : GameState) (a : Nat) : Decidable (IllegalFor s a) := by
  unfold IllegalFor; infer_instance

theorem stepBuy_fails (s : GameState) (a : Nat) (hne : ¬a = aPASS)
    (hc : s.inventory (toCard a) = 0 ∨ funds s < getPrice (toCard a) ∨
      ((a ∈ uniqueActions) ∧ owns s (toStateIndex a))) :
    stepBuy s a = some (false, s) := by
  unfold stepBuy
  rw [if_neg hne]
  dsimp only
  by_cases h1 : s.inventory (toCard a) = 0
  · rw [if_pos h1]
  · rw [if_neg h1]
    by_cases h2 : funds s < getPrice (toCard a)
    · rw [if_pos h2]
    · rw [if_neg h2]
      have h3 : (a ∈ uniqueActions) ∧ owns s (toStateIndex a) := by tauto
      rw [if_pos h3]

theorem stealCard_fails (s : GameState) (a : Nat)
    (hc : (spBUSINESS_CENTER ≥ toStateIndex a ∧ toStateIndex a ≥ spSTADIUM ∧
        owns s (toStateIndex a)) ∨
      s.cells (chosenTarget s) (toStateIndex a) = 0) :
    stealCardFromPlayer s a = (false, s) := by
  unfold stealCardFromPlayer
  dsimp only
  by_cases h1 : spBUSINESS_CENTER ≥ toStateIndex a ∧
      toStateIndex a ≥ spSTADIUM ∧ owns s (toStateIndex a)
  · rw [if_pos h1]
  · rw [if_neg h1]
    have h2 : s.cells (chosenTarget s) (toStateIndex a) = 0 := by tauto
    rw [if_pos h2]

/-- C2: every rule violation — action not accepted by the current sub-state,
insufficient funds, card out of stock, buying an owned unique card, or
stealing a card the chosen target does not own — makes `_step` return the
state object unchanged with reward `-3` and `game_over = false`, with no
turn rotation. -/
theorem mk_C2 (s : GameState) (a : Nat) (tm : Bool) (d : Option (Int × Int))
    (r1 r2 : Int) (h : IllegalFor s a) :
    stepM s a tm d r1 r2 = some (s, -3, false) := by
  unfold stepM
  dsimp only
  rcases h with ⟨hcts, hc⟩ | ⟨hcts, hc⟩ | ⟨hcts, hc⟩ | ⟨hcts, hc⟩ |
    ⟨hcts, hc⟩ | ⟨hcts, hc⟩
  · rw [if_pos hcts]
    unfold branchRoll
    rcases hc with hc | hc
    · rw [if_pos hc]
      rfl
    · rw [if_neg (not_not_intro
        (show a ∈ [aROLL_1, aROLL_2] by rw [hc.1]; decide)), if_pos hc]
      rfl
  · rw [if_neg (fun hh => by rw [hcts] at hh; exact absurd hh (by decide)),
      if_pos hcts]
    unfold branchReroll
    rw [if_pos hc]
    rfl
  · rw [if_neg (fun hh => by rw [hcts] at hh; exact absurd hh (by decide)),
      if_neg (fun hh => by rw [hcts] at hh; exact absurd hh (by decide)),
      if_pos hcts]
    unfold branchChooseCoins
    rw [if_pos hc]
    rfl
  · rw [if_neg (fun hh => by rw [hcts] at hh; exact absurd hh (by decide)),
      if_neg (fun hh => by rw [hcts] at hh; exact absurd hh (by decide)),
      if_neg (fun hh => by rw [hcts] at hh; exact absurd hh (by decide)),
      if_pos hcts]
    unfold branchChoosePlayerCard
    rw [if_pos hc]
    rfl
  · rw [if_neg (fun hh => by rw [hcts] at hh; exact absurd hh (by decide)),
      if_neg (fun hh => by rw [hcts] at hh; exact absurd hh (by decide)),
      if_neg (fun hh => by rw [hcts] at hh; exact absurd hh (by decide)),
      if_neg (fun hh => by rw [hcts] at hh; exact absurd hh (by decide)),
      if_pos hcts]
    unfold branchChooseCard
    rcases hc with hc | hc
    · rw [if_pos hc]
      rfl
    · by_cases hr : a < aWHEAT_FIELD ∨ a > aMARKET
      · rw [if_pos hr]
        rfl
      · rw [if_neg hr, stealCard_fails s a hc]
        rfl
  · rw [if_neg (fun hh => by rw [hcts] at hh; exact absurd hh (by decide)),
      if_neg (fun hh => by rw [hcts] at hh; exact absurd hh (by decide)),
      if_neg (fun hh => by rw [hcts] at hh; exact absurd hh (by decide)),
      if_neg (fun hh => by rw [hcts] at hh; exact absurd hh (by decide)),
      if_neg (fun hh => by rw [hcts] at hh; exact absurd hh (by decide)),
      if_pos hcts]
    unfold branchBuy
    rcases hc with hc | hc
    · rw [if_pos hc]
      rfl
    · by_cases hr : (a < aSTATION ∨ a > aMARKET) ∧ ¬ a = aPASS
      · rw [if_pos hr]
        rfl
      · rw [if_neg hr, stepBuy_fails s a hc.1 hc.2]
        rfl

/-- C2 witness: rolling with two dice from the reset state (no Station
owned) is illegal and leaves the state unchanged with reward `-3`. -/
theorem mk_C2_witness :
    IllegalFor (resetState 4 0) aROLL_2 ∧
    stepM (resetState 4 0) aROLL_2 true none 1 1 =
      some (resetState 4 0, -3, false) :=
  ⟨by decide, mk_C2 (resetState 4 0) aROLL_2 true none 1 1 (by decide)⟩

theorem triple_dn {t : StepResult} {s' : GameState} {r : Int} {dn : Bool}
    (h : t = (s', r, dn)) : dn = t.2.2 := (congrArg (fun x => x.2.2) h).symm

theorem triple_st {t : StepResult} {s' : GameState} {r : Int} {dn : Bool}
    (h : t = (s', r, dn)) : s' = t.1 := (congrArg Prod.fst h).symm

theorem triple_rw {t : StepResult} {s' : GameState} {r : Int} {dn : Bool}
    (h : t = (s', r, dn)) : r = t.2.1 :=
  (congrArg (fun x => x.2.1) h).symm

theorem branchRoll_dn (s : GameState) (a : Nat) (tm : Bool)
    (d : Option (Int × Int)) (r1 r2 : Int) (s' : GameState) (r : Int)
    (dn : Bool) (hp : branchRoll s a tm d r1 r2 = some (s', r, dn)) :
    dn = false := by
  unfold branchRoll at hp
  split at hp
  · exact triple_dn (Option.some.inj hp)
  · split at hp
    · exact triple_dn (Option.some.inj hp)
    · split at hp
      · exact triple_dn (Option.some.inj hp)
      · simp only [Option.map_eq_some'] at hp
        obtain ⟨s2, -, heq⟩ := hp
        exact triple_dn heq

theorem branchReroll_dn (s : GameState) (a : Nat) (tm : Bool)
    (d : Option (Int × Int)) (r1 r2 : Int) (s' : GameState) (r : Int)
    (dn : Bool) (hp : branchReroll s a tm d r1 r2 = some (s', r, dn)) :
    dn = false := by
  unfold branchReroll at hp
  split at hp
  · exact triple_dn (Option.some.inj hp)
  · simp only [Option.map_eq_some'] at hp
    obtain ⟨s2, -, heq⟩ := hp
    exact triple_dn heq

theorem branchChooseCoins_dn (s : GameState) (a : Nat) (s' : GameState)
    (r : Int) (dn : Bool) (hp : branchChooseCoins s a = some (s', r, dn)) :
    dn = false := by
  unfold branchChooseCoins at hp
  split at hp
  · exact triple_dn (Option.some.inj hp)
  · simp only [Option.map_eq_some'] at hp
    obtain ⟨s2, -, heq⟩ := hp
    exact triple_dn heq

theorem branchChoosePlayerCard_dn (s : GameState) (a : Nat) (s' : GameState)
    (r : Int) (dn : Bool)
    (hp : branchChoosePlayerCard s a = some (s', r, dn)) : dn = false := by
  unfold branchChoosePlayerCard at hp
  split at hp
  · exact triple_dn (Option.some.inj hp)
  · exact triple_dn (Option.some.inj hp)

theorem branchChooseCard_dn (s : GameState) (a : Nat) (s' : GameState)
    (r : Int) (dn : Bool) (hp : branchChooseCard s a = some (s', r, dn)) :
    dn = false := by
  unfold branchChooseCard at hp
  split at hp
  · exact triple_dn (Option.some.inj hp)
  · split at hp
    · exact triple_dn (Option.some.inj hp)
    · simp only [Option.map_eq_some'] at hp
      obtain ⟨s2, -, heq⟩ := hp
      exact triple_dn heq

theorem stepBuy_pass (s : GameState) : stepBuy s aPASS = some (true, s) := rfl

theorem stepBuy_currentPlayer (s : GameState) (a : Nat) (b : Bool)
    (sb : GameState) (hbb : stepBuy s a = some (b, sb)) :
    sb.currentPlayer = s.currentPlayer := by
  unfold stepBuy at hbb
  dsimp only at hbb
  split at hbb
  · obtain ⟨-, rfl⟩ := Prod.mk.injEq _ _ _ _ ▸ Option.some.inj hbb
    rfl
  · split at hbb
    · obtain ⟨-, rfl⟩ := Prod.mk.injEq _ _ _ _ ▸ Option.some.inj hbb
      rfl
    · split at hbb
      · obtain ⟨-, rfl⟩ := Prod.mk.injEq _ _ _ _ ▸ Option.some.inj hbb
        rfl
      · split at hbb
        · obtain ⟨-, rfl⟩ := Prod.mk.injEq _ _ _ _ ▸ Option.some.inj hbb
          rfl
        · simp only [Option.map_eq_some'] at hbb
          obtain ⟨s3, hfs, heq⟩ := hbb
          rw [fundsSet_eq_some] at hfs
          obtain ⟨-, rfl⟩ := hfs
          obtain ⟨-, rfl⟩ := Prod.mk.injEq _ _ _ _ ▸ heq
          rfl

theorem stepBuy_nPlayers (s : GameState) (a : Nat) (b : Bool)
    (sb : GameState) (hbb : stepBuy s a = some (b, sb)) :
    sb.nPlayers = s.nPlayers := by
  unfold stepBuy at hbb
  dsimp only at hbb
  split at hbb
  · obtain ⟨-, rfl⟩ := Prod.mk.injEq _ _ _ _ ▸ Option.some.inj hbb
    rfl
  · split at hbb
    · obtain ⟨-, rfl⟩ := Prod.mk.injEq _ _ _ _ ▸ Option.some.inj hbb
      rfl
    · split at hbb
      · obtain ⟨-, rfl⟩ := Prod.mk.injEq _ _ _ _ ▸ Option.some.inj hbb
        rfl
      · split at hbb
        · obtain ⟨-, rfl⟩ := Prod.mk.injEq _ _ _ _ ▸ Option.some.inj hbb
          rfl
        · simp only [Option.map_eq_some'] at hbb
          obtain ⟨s3, hfs, heq⟩ := hbb
          rw [fundsSet_eq_some] at hfs
          obtain ⟨-, rfl⟩ := hfs
          obtain ⟨-, rfl⟩ := Prod.mk.injEq _ _ _ _ ▸ heq
          rfl

theorem stepBuy_cells_frame (s : GameState) (a : Nat) (b : Bool)
    (sb : GameState) (hbb : stepBuy s a = some (b, sb)) (p c : Nat)
    (hc1 : ¬c = 1) (hca : ¬c = toStateIndex a) :
    sb.cells p c = s.cells p c := by
  unfold stepBuy at hbb
  dsimp only at hbb
  split at hbb
  · obtain ⟨-, rfl⟩ := Prod.mk.injEq _ _ _ _ ▸ Option.some.inj hbb
    rfl
  · split at hbb
    · obtain ⟨-, rfl⟩ := Prod.mk.injEq _ _ _ _ ▸ Option.some.inj hbb
      rfl
    · split at hbb
      · obtain ⟨-, rfl⟩ := Prod.mk.injEq _ _ _ _ ▸ Option.some.inj hbb
        rfl
      · split at hbb
        · obtain ⟨-, rfl⟩ := Prod.mk.injEq _ _ _ _ ▸ Option.some.inj hbb
          rfl
        · simp only [Option.map_eq_some'] at hbb
          obtain ⟨s3, hfs, heq⟩ := hbb
          rw [fundsSet_eq_some] at hfs
          obtain ⟨-, rfl⟩ := hfs
          obtain ⟨-, rfl⟩ := Prod.mk.injEq _ _ _ _ ▸ heq
          simp only [updCell_cells, decInventory_cells]
          rw [if_neg (fun hh => hc1 hh.2), if_neg (fun hh => hca hh.2)]

theorem stepBuy_monSum (s : GameState) (a : Nat) (sb : GameState)
    (hbb : stepBuy s a = some (true, sb)) (hna : ¬(3 ≤ a ∧ a ≤ 6)) :
    monSum sb sb.currentPlayer = monSum s s.currentPlayer := by
  have hcp := stepBuy_currentPlayer s a true sb hbb
  have hidx : ∀ c, 4 ≤ c → c ≤ 7 → ¬c = toStateIndex a := by
    intro c h4 h7
    unfold toStateIndex
    omega
  unfold monSum
  rw [hcp]
  rw [stepBuy_cells_frame s a true sb hbb _ _ (by decide)
      (hidx spSTATION (by decide) (by decide)),
    stepBuy_cells_frame s a true sb hbb _ _ (by decide)
      (hidx spMALL (by decide) (by decide)),
    stepBuy_cells_frame s a true sb hbb _ _ (by decide)
      (hidx spAMUSEMENT_PARK (by decide) (by decide)),
    stepBuy_cells_frame s a true sb hbb _ _ (by decide)
      (hidx spRADIO_TOWER (by decide) (by decide))]

/-- C4: the game-over flag comes up exactly in the `MAY_BUY` sub-state after
a non-illegal buy action that leaves the current player's monument count at
4, in which case the reward is 1000 and the state is the post-purchase state
with no rotation; while the game is not yet won (monument count at most 3),
a game-ending step is necessarily a monument purchase. -/
theorem mk_C4 (s : GameState) (a : Nat) (tm : Bool) (d : Option (Int × Int))
    (r1 r2 : Int) (s' : GameState) (r : Int) (dn : Bool)
    (hpre : monSum s s.currentPlayer ≤ 3)
    (hp : stepM s a tm d r1 r2 = some (s', r, dn)) :
    (dn = true ↔ currentTurnState s = tsMAY_BUY ∧ buyActionOk a ∧
      ∃ sb, stepBuy s a = some (true, sb) ∧ monSum sb sb.currentPlayer = 4 ∧
        s' = sb ∧ r = 1000) ∧
    (dn = true → (aSTATION ≤ a ∧ a ≤ aRADIO_TOWER) ∧
      s'.currentPlayer = s.currentPlayer) := by
  unfold stepM at hp
  dsimp only at hp
  split at hp
  · rename_i hcts
    have hdn := branchRoll_dn s a tm d r1 r2 s' r dn hp
    subst hdn
    refine ⟨⟨fun hh => absurd hh (by decide), ?_⟩, fun hh => absurd hh (by decide)⟩
    rintro ⟨hcts', -⟩
    rw [hcts] at hcts'
    exact absurd hcts' (by decide)
  · split at hp
    · rename_i hn1 hcts
      have hdn := branchReroll_dn s a tm d r1 r2 s' r dn hp
      subst hdn
      refine ⟨⟨fun hh => absurd hh (by decide), ?_⟩,
        fun hh => absurd hh (by decide)⟩
      rintro ⟨hcts', -⟩
      rw [hcts] at hcts'
      exact absurd hcts' (by decide)
    · split at hp
      · rename_i hn1 hn2 hcts
        have hdn := branchChooseCoins_dn s a s' r dn hp
        subst hdn
        refine ⟨⟨fun hh => absurd hh (by decide), ?_⟩,
          fun hh => absurd hh (by decide)⟩
        rintro ⟨hcts', -⟩
        rw [hcts] at hcts'
        exact absurd hcts' (by decide)
      · split at hp
        · rename_i hn1 hn2 hn3 hcts
          have hdn := branchChoosePlayerCard_dn s a s' r dn hp
          subst hdn
          refine ⟨⟨fun hh => absurd hh (by decide), ?_⟩,
            fun hh => absurd hh (by decide)⟩
          rintro ⟨hcts', -⟩
          rw [hcts] at hcts'
          exact absurd hcts' (by decide)
        · split at hp
          · rename_i hn1 hn2 hn3 hn4 hcts
            have hdn := branchChooseCard_dn s a s' r dn hp
            subst hdn
            refine ⟨⟨fun hh => absurd hh (by decide), ?_⟩,
              fun hh => absurd hh (by decide)⟩
            rintro ⟨hcts', -⟩
            rw [hcts] at hcts'
            exact absurd hcts' (by decide)
          · split at hp
            · rename_i hn1 hn2 hn3 hn4 hn5 hcts
              unfold branchBuy at hp
              split at hp
              · rename_i hrange
                have hdn : dn = false := triple_dn (Option.some.inj hp)
                subst hdn
                refine ⟨⟨fun hh => absurd hh (by decide), ?_⟩,
                  fun hh => absurd hh (by decide)⟩
                rintro ⟨-, hba, -⟩
                unfold buyActionOk aSTATION aMARKET aPASS at hba
                have : (a < 3 ∨ a > 21) ∧ ¬a = 22 := hrange
                omega
              · rename_i hrange
                rw [Option.bind_eq_some] at hp
                obtain ⟨⟨bb, sb0⟩, hbb, hp⟩ := hp
                split at hp
                · rename_i x heqm
                  have hbf : bb = false := (Prod.mk.injEq _ _ _ _ ▸ heqm).1
                  subst hbf
                  have hdn : dn = false := triple_dn (Option.some.inj hp)
                  subst hdn
                  refine ⟨⟨fun hh => absurd hh (by decide), ?_⟩,
                    fun hh => absurd hh (by decide)⟩
                  rintro ⟨-, -, sb, hsb', -⟩
                  rw [hbb] at hsb'
                  exact absurd (Prod.mk.injEq _ _ _ _ ▸ Option.some.inj hsb').1
                    (by decide)
                · rename_i s1 heqm
                  have hbt : bb = true := (Prod.mk.injEq _ _ _ _ ▸ heqm).1
                  have hbs : sb0 = s1 := (Prod.mk.injEq _ _ _ _ ▸ heqm).2
                  subst hbt
                  rw [hbs] at hbb
                  dsimp only at hp
                  split at hp
                  · rename_i hwin
                    have hs' : s' = s1 := triple_st (Option.some.inj hp)
                    have hr : r = 1000 := triple_rw (Option.some.inj hp)
                    have hdn : dn = true := triple_dn (Option.some.inj hp)
                    subst hdn
                    constructor
                    · refine ⟨fun hh => ⟨hcts, ?_, s1, hbb, hwin, hs', hr⟩,
                        fun hh => rfl⟩
                      have : ¬((a < 3 ∨ a > 21) ∧ ¬a = 22) := hrange
                      unfold buyActionOk aSTATION aMARKET aPASS
                      omega
                    · intro hh
                      have hmon : 3 ≤ a ∧ a ≤ 6 := by
                        by_contra hna
                        rw [stepBuy_monSum s a s1 hbb hna] at hwin
                        omega
                      exact ⟨hmon, hs' ▸ stepBuy_currentPlayer s a true s1 hbb⟩
                  · rename_i hnwin
                    split at hp
                    · have hdn : dn = false := triple_dn (Option.some.inj hp)
                      subst hdn
                      refine ⟨⟨fun hh => absurd hh (by decide), ?_⟩,
                        fun hh => absurd hh (by decide)⟩
                      rintro ⟨-, -, sb, hsb', hwin', -⟩
                      rw [hbb] at hsb'
                      have : s1 = sb :=
                        (Prod.mk.injEq _ _ _ _ ▸ Option.some.inj hsb').2
                      rw [← this] at hwin'
                      exact absurd hwin' hnwin
                    · have hdn : dn = false := triple_dn (Option.some.inj hp)
                      subst hdn
                      refine ⟨⟨fun hh => absurd hh (by decide), ?_⟩,
                        fun hh => absurd hh (by decide)⟩
                      rintro ⟨-, -, sb, hsb', hwin', -⟩
                      rw [hbb] at hsb'
                      have : s1 = sb :=
                        (Prod.mk.injEq _ _ _ _ ▸ Option.some.inj hsb').2
                      rw [← this] at hwin'
                      exact absurd hwin' hnwin
            · rename_i hn1 hn2 hn3 hn4 hn5 hn6
              have hdn : dn = false := triple_dn (Option.some.inj hp)
              subst hdn
              refine ⟨⟨fun hh => absurd hh (by decide), ?_⟩,
                fun hh => absurd hh (by decide)⟩
              rintro ⟨hcts', -⟩
              exact absurd hcts' hn6

/-- C4 witness: from a state in `MAY_BUY` where player 0 owns three
monuments and can afford the Station, buying it ends the game with reward
1000 and no rotation. -/
theorem mk_C4_witness :
    monSum stateC4 stateC4.currentPlayer ≤ 3 ∧
    ∃ s' r dn, stepM stateC4 aSTATION true none 1 1 = some (s', r, dn) ∧
      dn = true ∧ r = 1000 ∧ s'.currentPlayer = stateC4.currentPlayer := by
  refine ⟨by decide, ?_⟩
  have h := mk_C4 stateC4 aSTATION true none 1 1 _ _ _ (by decide) rfl
  refine ⟨_, _, _, rfl, by decide, ?_, ?_⟩
  · obtain ⟨-, -, sb, -, -, -, hr⟩ := h.1.mp (by decide)
    exact hr
  · exact (h.2 (by decide)).2

theorem stepM_mayBuy (s : GameState) (a : Nat) (tm : Bool)
    (d : Option (Int × Int)) (r1 r2 : Int)
    (hcts : currentTurnState s = tsMAY_BUY) :
    stepM s a tm d r1 r2 = branchBuy s a
      (decide (owns s spAMUSEMENT_PARK) && !(decide (secondTurn s = 1))) := by
  unfold stepM
  dsimp only
  rw [if_neg (fun hh => by rw [hcts] at hh; exact absurd hh (by decide)),
    if_neg (fun hh => by rw [hcts] at hh; exact absurd hh (by decide)),
    if_neg (fun hh => by rw [hcts] at hh; exact absurd hh (by decide)),
    if_neg (fun hh => by rw [hcts] at hh; exact absurd hh (by decide)),
    if_neg (fun hh => by rw [hcts] at hh; exact absurd hh (by decide)),
    if_pos hcts]

/-- The state written by the bonus-turn arm of `MAY_BUY`: back to
`ROLL_DICE`, dice cleared, second-turn flag set, selected player cleared. -/
def bonusState (sb : GameState) : GameState :=
  setSelectedPlayer (setSecondTurn
    (setCurrentThrow (setTurnState sb tsROLL_DICE) 0 0) 1) 0

theorem bonusState_currentPlayer (sb : GameState) :
    (bonusState sb).currentPlayer = sb.currentPlayer := rfl

theorem bonusState_cells (sb : GameState) (c : Nat) :
    (bonusState sb).cells sb.currentPlayer c =
      if c = spPLAYER_SELECTED then 0
      else if c = spSECOND_TURN then 1
      else if c = spDIE2 then 0
      else if c = spDIE1 then 0
      else if c = spTURN then tsROLL_DICE
      else sb.cells sb.currentPlayer c := by
  unfold bonusState setSelectedPlayer setSecondTurn setTurnState
  simp only [updCell_cells, setCurrentThrow_cells, updCell_currentPlayer,
    setCurrentThrow_currentPlayer]
  norm_num

theorem endTurn_currentPlayer (s : GameState) :
    (endTurn s).currentPlayer = (s.currentPlayer + 1) % s.nPlayers := rfl

theorem endTurn_nPlayers (s : GameState) :
    (endTurn s).nPlayers = s.nPlayers := rfl

theorem endTurn_inventory (s : GameState) :
    (endTurn s).inventory = s.inventory := rfl

theorem endTurn_cells (s : GameState) (p c : Nat) :
    (endTurn s).cells p c =
      if p = (s.currentPlayer + 1) % s.nPlayers ∧ c = spPLAYER_SELECTED then 0
      else if p = (s.currentPlayer + 1) % s.nPlayers ∧ c = spSECOND_TURN then 0
      else if p = (s.currentPlayer + 1) % s.nPlayers ∧ c = spTURN then
        tsROLL_DICE
      else if p = s.currentPlayer ∧ c = spDIE2 then 0
      else if p = s.currentPlayer ∧ c = spDIE1 then 0
      else if p = s.currentPlayer ∧ c = spTURN then 0
      else s.cells p c := by
  unfold endTurn setSelectedPlayer setSecondTurn setTurnState
  dsimp only
  simp only [updCell_cells, setCurrentThrow_cells, updCell_currentPlayer,
    setCurrentThrow_currentPlayer]
  norm_num

theorem stepBuy_dice (s : GameState) (a : Nat) (sb : GameState)
    (hba : buyActionOk a) (hbb : stepBuy s a = some (true, sb)) (c : Nat)
    (hc : 23 ≤ c) :
    sb.cells s.currentPlayer c = s.cells s.currentPlayer c := by
  rcases hba with ⟨h3, h21⟩ | hpass
  · have h3' : 3 ≤ a := h3
    have h21' : a ≤ 21 := h21
    refine stepBuy_cells_frame s a true sb hbb _ _ (by omega) ?_
    show ¬c = a + 1
    omega
  · rw [hpass] at hbb
    have hss : s = sb :=
      (Prod.mk.injEq _ _ _ _ ▸
        Option.some.inj ((stepBuy_pass s).symm.trans hbb)).2
    rw [← hss]

/-- C5: completing `MAY_BUY` with equal dice while owning the Amusement Park
(checked at `_step` entry): if the second-turn flag is not yet set, the same
player returns to `ROLL_DICE` with dice reset and the flag marked, without
rotation; if the flag is already set, no second bonus turn is granted and
the turn ends normally, rotating to the next player. -/
theorem mk_C5 (s : GameState) (a : Nat) (tm : Bool) (d : Option (Int × Int))
    (r1 r2 : Int) (sb s' : GameState) (r : Int)
    (hcts : currentTurnState s = tsMAY_BUY)
    (hba : buyActionOk a)
    (hbb : stepBuy s a = some (true, sb))
    (hdice : s.cells s.currentPlayer spDIE1 = s.cells s.currentPlayer spDIE2)
    (hAP : owns s spAMUSEMENT_PARK)
    (hp : stepM s a tm d r1 r2 = some (s', r, false)) :
    (¬ secondTurn s = 1 →
      s'.currentPlayer = s.currentPlayer ∧
      s'.cells s.currentPlayer spTURN = tsROLL_DICE ∧
      s'.cells s.currentPlayer spDIE1 = 0 ∧
      s'.cells s.currentPlayer spDIE2 = 0 ∧
      s'.cells s.currentPlayer spSECOND_TURN = 1) ∧
    (secondTurn s = 1 →
      s'.currentPlayer = (s.currentPlayer + 1) % s.nPlayers ∧
      s'.cells s'.currentPlayer spTURN = tsROLL_DICE ∧
      s'.cells s.currentPlayer spDIE1 = 0 ∧
      s'.cells s.currentPlayer spDIE2 = 0) := by
  have hcp : sb.currentPlayer = s.currentPlayer :=
    stepBuy_currentPlayer s a true sb hbb
  have hnpb : sb.nPlayers = s.nPlayers := stepBuy_nPlayers s a true sb hbb
  have hok : ¬((a < 3 ∨ a > 21) ∧ ¬a = 22) := by
    simp only [buyActionOk, aSTATION, aMARKET, aPASS] at hba
    omega
  have hdd : (currentThrow sb).1 = (currentThrow sb).2 := by
    show sb.cells sb.currentPlayer spDIE1 = sb.cells sb.currentPlayer spDIE2
    rw [hcp, stepBuy_dice s a sb hba hbb spDIE1 (by decide),
      stepBuy_dice s a sb hba hbb spDIE2 (by decide)]
    exact hdice
  rw [stepM_mayBuy s a tm d r1 r2 hcts] at hp
  unfold branchBuy at hp
  rw [if_neg (show ¬((a < aSTATION ∨ a > aMARKET) ∧ ¬a = aPASS) from hok),
    hbb] at hp
  dsimp only [Option.bind] at hp
  by_cases hwin : monSum sb sb.currentPlayer = 4
  · rw [if_pos hwin] at hp
    have hx : (false : Bool) = true := triple_dn (Option.some.inj hp)
    exact absurd hx (by decide)
  · rw [if_neg hwin] at hp
    refine ⟨fun hns => ?_, fun hs1 => ?_⟩
    · have hst : (decide (owns s spAMUSEMENT_PARK) &&
          !decide (secondTurn s = 1)) = true := by
        simp [hAP, hns]
      rw [if_pos ⟨hdd, hst⟩] at hp
      have hs' : s' = bonusState sb := triple_st (Option.some.inj hp)
      subst hs'
      refine ⟨?_, ?_, ?_, ?_, ?_⟩
      · rw [bonusState_currentPlayer, hcp]
      · rw [← hcp, bonusState_cells]
        simp [spTURN, spPLAYER_SELECTED, spSECOND_TURN, spDIE1, spDIE2]
      · rw [← hcp, bonusState_cells]
        simp [spPLAYER_SELECTED, spSECOND_TURN, spDIE1, spDIE2]
      · rw [← hcp, bonusState_cells]
        simp [spPLAYER_SELECTED, spSECOND_TURN, spDIE2]
      · rw [← hcp, bonusState_cells]
        simp [spPLAYER_SELECTED, spSECOND_TURN]
    · have hst : (decide (owns s spAMUSEMENT_PARK) &&
          !decide (secondTurn s = 1)) = false := by
        simp [hs1]
      rw [if_neg (fun hh => by rw [hst] at hh; exact absurd hh.2 (by decide))]
        at hp
      have hs' : s' = endTurn sb := triple_st (Option.some.inj hp)
      subst hs'
      refine ⟨?_, ?_, ?_, ?_⟩
      · rw [endTurn_currentPlayer, hcp, hnpb]
      · rw [endTurn_currentPlayer, endTurn_cells]
        simp [spTURN, spPLAYER_SELECTED, spSECOND_TURN]
      · rw [← hcp, endTurn_cells]
        simp [spTURN, spPLAYER_SELECTED, spSECOND_TURN, spDIE1, spDIE2]
      · rw [← hcp, endTurn_cells]
        simp [spTURN, spPLAYER_SELECTED, spSECOND_TURN, spDIE2]

/-- A 4-player state in `MAY_BUY` where player 0 owns the Amusement Park and
rolled double twos. -/
def stateC5 : GameState :=
  updCell (updCell (updCell (updCell (resetState 4 0) 0 spTURN tsMAY_BUY)
    0 spAMUSEMENT_PARK 1) 0 spDIE1 2) 0 spDIE2 2

/-- C5 witness: the bonus-turn arm at a concrete input — doubles, Amusement
Park owned, flag clear: the same player is back in `ROLL_DICE` with the flag
set. -/
theorem mk_C5_witness :
    ¬ secondTurn stateC5 = 1 ∧
    ∃ s' r, stepM stateC5 aPASS true none 1 1 = some (s', r, false) ∧
      s'.currentPlayer = stateC5.currentPlayer ∧
      s'.cells stateC5.currentPlayer spTURN = tsROLL_DICE ∧
      s'.cells stateC5.currentPlayer spSECOND_TURN = 1 := by
  refine ⟨by decide, ?_⟩
  have h := mk_C5 stateC5 aPASS true none 1 1 stateC5 _ _ (by decide)
    (Or.inr rfl) rfl (by decide) (by decide) rfl
  obtain ⟨hcp', hturn, hd1, hd2, hflag⟩ := h.1 (by decide)
  exact ⟨_, _, rfl, hcp', hturn, hflag⟩

/-- C8: a non-bonus completion of `MAY_BUY` (no doubles-with-Amusement-Park
bonus available) rotates the current player by one modulo the player count,
resets the finished player's dice to unset and their turn cell to 0, puts
the incoming player in `ROLL_DICE` with second-turn flag and pending target
reset to 0, and leaves every player's funds, every card count and the
inventory unchanged relative to the post-purchase state. -/
theorem mk_C8 (s : GameState) (a : Nat) (tm : Bool) (d : Option (Int × Int))
    (r1 r2 : Int) (sb s' : GameState) (r : Int)
    (hn2 : 2 ≤ s.nPlayers)
    (hcplt : s.currentPlayer < s.nPlayers)
    (hcts : currentTurnState s = tsMAY_BUY)
    (hba : buyActionOk a)
    (hbb : stepBuy s a = some (true, sb))
    (hnb : ¬(s.cells s.currentPlayer spDIE1 = s.cells s.currentPlayer spDIE2 ∧
      owns s spAMUSEMENT_PARK ∧ ¬ secondTurn s = 1))
    (hp : stepM s a tm d r1 r2 = some (s', r, false)) :
    s'.currentPlayer = (s.currentPlayer + 1) % s.nPlayers ∧
    s'.cells s.currentPlayer spDIE1 = 0 ∧
    s'.cells s.currentPlayer spDIE2 = 0 ∧
    s'.cells s.currentPlayer spTURN = 0 ∧
    s'.cells s'.currentPlayer spTURN = tsROLL_DICE ∧
    s'.cells s'.currentPlayer spSECOND_TURN = 0 ∧
    s'.cells s'.currentPlayer spPLAYER_SELECTED = 0 ∧
    (∀ p, s'.cells p spCOINS = sb.cells p spCOINS) ∧
    (∀ p c, spSTATION ≤ c → c ≤ spMARKET → s'.cells p c = sb.cells p c) ∧
    s'.inventory = sb.inventory ∧
    s'.nPlayers = s.nPlayers := by
  have hcp : sb.currentPlayer = s.currentPlayer :=
    stepBuy_currentPlayer s a true sb hbb
  have hnpb : sb.nPlayers = s.nPlayers := stepBuy_nPlayers s a true sb hbb
  have hok : ¬((a < 3 ∨ a > 21) ∧ ¬a = 22) := by
    simp only [buyActionOk, aSTATION, aMARKET, aPASS] at hba
    omega
  have hmod : (s.currentPlayer + 1) % s.nPlayers = s.currentPlayer + 1 ∨
      (s.currentPlayer + 1 = s.nPlayers ∧
        (s.currentPlayer + 1) % s.nPlayers = 0) := by
    by_cases hlt : s.currentPlayer + 1 < s.nPlayers
    · exact Or.inl (Nat.mod_eq_of_lt hlt)
    · right
      have he : s.currentPlayer + 1 = s.nPlayers := by omega
      exact ⟨he, by rw [he, Nat.mod_self]⟩
  have hne : ¬(s.currentPlayer = (s.currentPlayer + 1) % s.nPlayers) := by
    rcases hmod with h | ⟨he, h⟩ <;> omega
  rw [stepM_mayBuy s a tm d r1 r2 hcts] at hp
  unfold branchBuy at hp
  rw [if_neg (show ¬((a < aSTATION ∨ a > aMARKET) ∧ ¬a = aPASS) from hok),
    hbb] at hp
  dsimp only [Option.bind] at hp
  by_cases hwin : monSum sb sb.currentPlayer = 4
  · rw [if_pos hwin] at hp
    have hx : (false : Bool) = true := triple_dn (Option.some.inj hp)
    exact absurd hx (by decide)
  · rw [if_neg hwin] at hp
    have hnbc : ¬((currentThrow sb).1 = (currentThrow sb).2 ∧
        (decide (owns s spAMUSEMENT_PARK) &&
          !decide (secondTurn s = 1)) = true) := by
      rintro ⟨hd, hstt⟩
      apply hnb
      simp only [Bool.and_eq_true, Bool.not_eq_true', decide_eq_true_eq,
        decide_eq_false_iff_not] at hstt
      refine ⟨?_, hstt.1, hstt.2⟩
      have hd' : sb.cells sb.currentPlayer spDIE1 =
          sb.cells sb.currentPlayer spDIE2 := hd
      rw [hcp, stepBuy_dice s a sb hba hbb spDIE1 (by decide),
        stepBuy_dice s a sb hba hbb spDIE2 (by decide)] at hd'
      exact hd'
    rw [if_neg hnbc] at hp
    have hs' : s' = endTurn sb := triple_st (Option.some.inj hp)
    subst hs'
    have hnewp : (endTurn sb).currentPlayer =
        (s.currentPlayer + 1) % s.nPlayers := by
      rw [endTurn_currentPlayer, hcp, hnpb]
    refine ⟨hnewp, ?_, ?_, ?_, ?_, ?_, ?_, ?_, ?_, ?_, ?_⟩
    · rw [← hcp, endTurn_cells]
      simp [spTURN, spPLAYER_SELECTED, spSECOND_TURN, spDIE1, spDIE2]
    · rw [← hcp, endTurn_cells]
      simp [spTURN, spPLAYER_SELECTED, spSECOND_TURN, spDIE2]
    · rw [endTurn_cells]
      have hne' : ¬(s.currentPlayer = (sb.currentPlayer + 1) % sb.nPlayers) :=
        by rw [hcp, hnpb]; exact hne
      rw [if_neg (fun hh => absurd hh.2 (by decide)),
        if_neg (fun hh => absurd hh.2 (by decide)),
        if_neg (fun hh => hne' hh.1),
        if_neg (fun hh => absurd hh.2 (by decide)),
        if_neg (fun hh => absurd hh.2 (by decide)),
        if_pos ⟨hcp.symm, rfl⟩]
    · rw [endTurn_currentPlayer, endTurn_cells]
      simp [spTURN, spPLAYER_SELECTED, spSECOND_TURN]
    · rw [endTurn_currentPlayer, endTurn_cells]
      simp [spPLAYER_SELECTED, spSECOND_TURN]
    · rw [endTurn_currentPlayer, endTurn_cells]
      simp [spPLAYER_SELECTED]
    · intro p
      rw [endTurn_cells]
      simp [spCOINS, spTURN, spPLAYER_SELECTED, spSECOND_TURN, spDIE1, spDIE2]
    · intro p c h4 h22
      have h4' : 4 ≤ c := h4
      have h22' : c ≤ 22 := h22
      rw [endTurn_cells]
      rw [if_neg (fun hh => by have hc3 : c = 3 := hh.2; omega),
        if_neg (fun hh => by have hc2 : c = 2 := hh.2; omega),
        if_neg (fun hh => by have hc0 : c = 0 := hh.2; omega),
        if_neg (fun hh => by have hc24 : c = 24 := hh.2; omega),
        if_neg (fun hh => by have hc23 : c = 23 := hh.2; omega),
        if_neg (fun hh => by have hc0 : c = 0 := hh.2; omega)]
    · exact endTurn_inventory sb
    · rw [endTurn_nPlayers, hnpb]

/-- A 4-player state in `MAY_BUY` where player 0 rolled a single 1 (no
doubles). -/
def stateC8 : GameState :=
  updCell (updCell (resetState 4 0) 0 spTURN tsMAY_BUY) 0 spDIE1 1

/-- C8 witness: a concrete non-bonus `MAY_BUY` completion — passing on the
buy rotates from player 0 to player 1, resets player 0's dice and puts
player 1 in `ROLL_DICE`. -/
theorem mk_C8_witness :
    2 ≤ stateC8.nPlayers ∧
    ∃ s' r, stepM stateC8 aPASS true none 1 1 = some (s', r, false) ∧
      s'.currentPlayer = 1 ∧ s'.cells 0 spDIE1 = 0 ∧
      s'.cells 1 spTURN = tsROLL_DICE := by
  refine ⟨by decide, ?_⟩
  have h := mk_C8 stateC8 aPASS true none 1 1 stateC8 _ _ (by decide)
    (by decide) (by decide) (Or.inr rfl) rfl (by decide) rfl
  obtain ⟨hcp', hd1, hd2, ht0, htn, hf, hsel, hco, hct, hinv, hnp'⟩ := h
  have hone : (stateC8.currentPlayer + 1) % stateC8.nPlayers = 1 := by decide
  refine ⟨_, _, rfl, ?_, ?_, ?_⟩
  · rw [hcp', hone]
  · exact hd1
  · rw [hcp', hone] at htn
    exact htn

/-- Modelled from the spec's words (for comparison with
`payOthersLoop`): walk the creditors in reverse turn order; each creditor is
paid the lesser of their due (`per` coins per owned card) and the payer's
remaining funds; the payment moves from the payer's to the creditor's
coins. -/
def payCascadeSpecLoop (card : Nat) (per : Int) :
    List Nat → GameState → GameState
  | [], st => st
  | i :: rest, st =>
      let due := per * st.cells i card
      let paid := min due (funds st)
      let st1 := updCell st st.currentPlayer spCOINS (funds st - paid)
      payCascadeSpecLoop card per rest
        (updCell st1 i spCOINS (st1.cells i spCOINS + paid))

/-- Modelled from the spec's words: the whole debt cascade over the other
players in reverse turn order. -/
def payCascadeSpec (s : GameState) (card : Nat) (per : Int) : GameState :=
  payCascadeSpecLoop card per (others s).reverse s

theorem payOthersLoop_eq_spec (card : Nat) (per : Int) (l : List Nat) :
    ∀ st, payOthersLoop card per l st =
      some (payCascadeSpecLoop card per l st) := by
  induction l with
  | nil => intro st; rfl
  | cons i rest ih =>
      intro st
      show (fundsSet st (funds st -
          (if per * st.cells i card > funds st then funds st
            else per * st.cells i card))).bind _ = _
      have hmin : (if per * st.cells i card > funds st then funds st
          else per * st.cells i card) =
          min (per * st.cells i card) (funds st) := by
        rw [min_def]
        split_ifs <;> omega
      rw [hmin]
      have hv : ¬(funds st - min (per * st.cells i card) (funds st) < 0) := by
        have := min_le_right (per * st.cells i card) (funds st)
        omega
      unfold fundsSet
      rw [if_neg hv]
      exact ih _

theorem payCascadeSpecLoop_zero (card : Nat) (per : Int)
    (hcard : ¬card = spCOINS) (l : List Nat) :
    ∀ st, funds st = 0 → (∀ i ∈ l, 0 ≤ per * st.cells i card) →
    ∀ p, (payCascadeSpecLoop card per l st).cells p spCOINS =
      st.cells p spCOINS := by
  induction l with
  | nil => intro st _ _ p; rfl
  | cons i rest ih =>
      intro st h0 hnn p
      have hdue : 0 ≤ per * st.cells i card :=
        hnn i (List.mem_cons_self i rest)
      have hpaid : min (per * st.cells i card) (funds st) = 0 := by
        rw [min_def]
        split_ifs <;> omega
      show (payCascadeSpecLoop card per rest _).cells p spCOINS = _
      rw [hpaid]
      have hfeq : funds st = st.cells st.currentPlayer spCOINS := rfl
      have hcells : ∀ q, (updCell (updCell st st.currentPlayer spCOINS
          (funds st - 0)) i spCOINS
          ((updCell st st.currentPlayer spCOINS (funds st - 0)).cells i
            spCOINS + 0)).cells q spCOINS = st.cells q spCOINS := by
        intro q
        simp only [updCell_cells, sub_zero, add_zero]
        split_ifs with hq1 hq2 hq3
        · rw [hq1.1, hq2.1]
          exact hfeq.symm
        · rw [hq1.1]
        · rw [hq3.1]
          exact hfeq.symm
        · rfl
      have hcard' : ∀ q, (updCell (updCell st st.currentPlayer spCOINS
          (funds st - 0)) i spCOINS
          ((updCell st st.currentPlayer spCOINS (funds st - 0)).cells i
            spCOINS + 0)).cells q card = st.cells q card := by
        intro q
        simp only [updCell_cells]
        rw [if_neg (fun hh => hcard hh.2), if_neg (fun hh => hcard hh.2)]
      rw [ih _ ?_ ?_ p, hcells p]
      · show (updCell _ i spCOINS _).cells _ spCOINS = 0
        rw [show (updCell (updCell st st.currentPlayer spCOINS
            (funds st - 0)) i spCOINS
            ((updCell st st.currentPlayer spCOINS (funds st - 0)).cells i
              spCOINS + 0)).currentPlayer = st.currentPlayer from rfl]
        rw [hcells st.currentPlayer]
        rw [← hfeq]
        exact h0
      · intro j hj
        rw [hcard' j]
        exact hnn j (List.mem_cons_of_mem i hj)

/-- C6: the Cafe and Family Restaurant debt cascades.  The Cafe phase pays
`1 + mall-bonus` and the Family Restaurant phase `2 + mall-bonus` coins per
owned card to the other players; the executable cascade never aborts and
equals the spec-side cascade that walks the other players in reverse turn
order paying each creditor the lesser of their due and the payer's
remaining funds; and with the payer's funds at zero (once the funds are
exhausted) every remaining creditor receives nothing. -/
theorem mk_C6 (s : GameState) (card : Nat) (per : Int) :
    (cCAFE ∈ s.cardsActivated → cafePhase s (mallBonus s) =
      (payOthersFromIndex s spCAFE (1 + mallBonus s)).map
        (fun s1 => removeAct s1 cCAFE)) ∧
    (cFAMILY_RESTAURANT ∈ s.cardsActivated → famPhase s (mallBonus s) =
      (payOthersFromIndex s spFAMILY_RESTAURANT (2 + mallBonus s)).map
        (fun s1 => removeAct s1 cFAMILY_RESTAURANT)) ∧
    payOthersFromIndex s card per = some (payCascadeSpec s card per) ∧
    (¬card = spCOINS → funds s = 0 →
      (∀ i ∈ (others s).reverse, 0 ≤ per * s.cells i card) →
      ∀ p, (payCascadeSpec s card per).cells p spCOINS =
        s.cells p spCOINS) := by
  refine ⟨?_, ?_, ?_, ?_⟩
  · intro hmem
    unfold cafePhase
    rw [if_pos hmem]
  · intro hmem
    unfold famPhase
    rw [if_pos hmem]
  · exact payOthersLoop_eq_spec card per (others s).reverse s
  · intro hcard h0 hnn p
    exact payCascadeSpecLoop_zero card per hcard (others s).reverse s h0 hnn p

/-- A 4-player state with Cafe activated: players 1 and 2 own two Cafes
each, player 3 one, and the paying player 0 holds 4 coins. -/
def stateC6 : GameState :=
  { (updCell (updCell (updCell (updCell (resetState 4 0) 3 spCAFE 1)
      2 spCAFE 2) 1 spCAFE 2) 0 spCOINS 4) with
    cardsActivated := [cBAKERY, cCAFE] }

/-- The same state with the paying player already at zero funds. -/
def stateC6z : GameState := updCell stateC6 0 spCOINS 0

/-- C6 witness: the cascade at the concrete Cafe scenario — the phase
dispatches to the reverse-order cascade at `1 + bonus`, the executable
cascade equals the spec cascade and ends with the payer at 0 and creditors
at 4, 5 and 4 coins; from a zero-funds payer, a creditor receives
nothing. -/
theorem mk_C6_witness :
    (cCAFE ∈ stateC6.cardsActivated) ∧
    cafePhase stateC6 (mallBonus stateC6) =
      (payOthersFromIndex stateC6 spCAFE (1 + mallBonus stateC6)).map
        (fun s1 => removeAct s1 cCAFE) ∧
    payOthersFromIndex stateC6 spCAFE 1 =
      some (payCascadeSpec stateC6 spCAFE 1) ∧
    (payCascadeSpec stateC6 spCAFE 1).cells 0 spCOINS = 0 ∧
    (payCascadeSpec stateC6 spCAFE 1).cells 1 spCOINS = 4 ∧
    (payCascadeSpec stateC6 spCAFE 1).cells 2 spCOINS = 5 ∧
    (payCascadeSpec stateC6 spCAFE 1).cells 3 spCOINS = 4 ∧
    (payCascadeSpec stateC6z spCAFE 1).cells 1 spCOINS =
      stateC6z.cells 1 spCOINS := by
  have h := mk_C6 stateC6 spCAFE 1
  have hz := mk_C6 stateC6z spCAFE 1
  exact ⟨by decide, h.1 (by decide), h.2.2.1, by decide, by decide, by decide,
    by decide, hz.2.2.2 (by decide) (by decide) (by decide) 1⟩

end MachiKoro
